import Mathlib

/-!
# DevDigest — verification of the multi-source fetch-and-normalize pipeline

Shallow embedding of the content-refresh pipeline of the DevDigest repository:

* `src/app/api/refresh/route.js` — the refresh orchestrator (`POST`), the
  per-type fetchers (`fetchRedditContent`, `fetchRSSContent`, `fetchAPIContent`),
  the per-strategy processors and the route-local `parseRSSXML`;
* `src/lib/contentAggregator.js` — the `ContentAggregator` class
  (`parseRSSXML`, `extractXMLTagWithCDATA`, `cleanHTML`, `fixRSSUrl`,
  `extractItemsFromAPI`, `matchesFilters`, `fetchAPIContent`);
* the mongoose `Content` schema (unique `url` index, unique sparse
  `contentHash` index, the `pre('save')` MD5 hook, field validators).

Modelling conventions, fixed here once and referenced below:

* JavaScript strings are Lean `String`s; all scanning is over `String.data`
  (`List Char`).  The inputs used in concrete theorems are ASCII, so
  JavaScript's UTF-16 `length` coincides with `String.length`.
* JavaScript numbers: every arithmetic comparison performed by the code on
  integer counters is modelled exactly over `Nat`/`Int`.  The two non-integer
  comparisons (`fetchedCount >= maxPosts * 0.6` and
  `totalWords < Math.max(k, minWordCount / d)`) are modelled by the scaled
  integer comparisons `5*fetchedCount ≥ 3*maxPosts` and
  `d*totalWords < max (d*k) minWordCount`; for the integer ranges reachable
  here (counters below 2^53) the IEEE-double evaluation of the original
  expressions decides exactly the same predicate, because the float result is
  within 1e-13 of the rational value while the compared quantities are
  integers or rationals with denominator ≤ 20.
* `Date` values never influence any claim under verification; date parsing
  (`new Date(string)`) is modelled by the constant `jsDateParse` and document
  timestamps are omitted from the stored-content model (every creation site
  in the source supplies a fallback date, so the `publishedAt : required`
  validator never fires).
* The persisted store is a list of stored documents; `Content.findOne({url})`
  is lookup by URL, and `content.save()` models mongoose validation
  (required / maxlength / min / max on the modelled fields) plus the two
  unique indexes of the schema.  `save` on a duplicate returns the store
  unchanged and reports failure, exactly as the caught
  `DuplicateKeyError` does in the source.
* `crypto.createHash('md5').update(title + url).digest('hex')` is modelled by
  the fingerprint `md5Hex`.  The development only uses that the digest is a
  function of the concatenated string (equal inputs give equal digests);
  accidental MD5 collisions between distinct inputs are neither claimed nor
  relied on, so the fingerprint is taken to be the concatenation itself.
* The route launches all per-source fetches with `Promise.allSettled`; each
  database operation is atomic.  The model serializes the per-source
  pipelines in the launch order (reddit sources, then rss, then api — the
  order in which the route pushes the promises).  Every property proved here
  is insensitive to the interleaving: it follows from per-save-step facts.
-/

/-! ## JavaScript string primitives -/

/-- JavaScript whitespace for `trim`/`\s` (the code points that occur in the
inputs of this development). -/
def jsIsWs (c : Char) : Bool :=
  c = ' ' ∨ c = '\t' ∨ c = '\n' ∨ c = '\r'

/-- `String.prototype.trim`. -/
def jsTrim (s : String) : String :=
  String.mk (((s.data.dropWhile jsIsWs).reverse.dropWhile jsIsWs).reverse)

/-- `s.substring(0, n)` (also `s.slice(0, n)` for `n ≥ 0`). -/
def jsTake (n : Nat) (s : String) : String :=
  String.mk (s.data.take n)

/-- `String.prototype.toLowerCase` (ASCII range, which covers every keyword
vocabulary in the source). -/
def jsLower (s : String) : String :=
  String.mk (s.data.map Char.toLower)

/-- Is `pat` a prefix of `s` (char-exact)? -/
def charsIsPre : List Char → List Char → Bool
  | [], _ => true
  | _ :: _, [] => false
  | p :: ps, c :: cs => p = c && charsIsPre ps cs

/-- Is `pat` a prefix of `s`, comparing ASCII case-insensitively (the `i`
regex flag)? -/
def charsIsPreCI : List Char → List Char → Bool
  | [], _ => true
  | _ :: _, [] => false
  | p :: ps, c :: cs => p.toLower = c.toLower && charsIsPreCI ps cs

/-- Does `s` contain `pat` as a contiguous substring? -/
def charsHasSub (pat : List Char) : List Char → Bool
  | [] => charsIsPre pat []
  | c :: cs => charsIsPre pat (c :: cs) || charsHasSub pat cs

/-- `String.prototype.includes`. -/
def jsIncludes (s pat : String) : Bool :=
  charsHasSub pat.data s.data

/-- Index of the first occurrence of `pat` in `s`, if any. -/
def charsFindSub (pat : List Char) : List Char → Option Nat
  | [] => if charsIsPre pat [] then some 0 else none
  | c :: cs =>
      if charsIsPre pat (c :: cs) then some 0
      else (charsFindSub pat cs).map (· + 1)

/-- Split at the first occurrence of `pat`: `some (before, after)` where
`after` starts just past the occurrence. -/
def charsSplitAtSub (pat : List Char) (s : List Char) : Option (List Char × List Char) :=
  match charsFindSub pat s with
  | none => none
  | some i => some (s.take i, s.drop (i + pat.length))

/-- Same, comparing case-insensitively. -/
def charsFindSubCI (pat : List Char) : List Char → Option Nat
  | [] => if charsIsPreCI pat [] then some 0 else none
  | c :: cs =>
      if charsIsPreCI pat (c :: cs) then some 0
      else (charsFindSubCI pat cs).map (· + 1)

def charsSplitAtSubCI (pat : List Char) (s : List Char) : Option (List Char × List Char) :=
  match charsFindSubCI pat s with
  | none => none
  | some i => some (s.take i, s.drop (i + pat.length))

/-- Number of maximal runs of whitespace in `s` (helper for `split(/\s+/)`). -/
def charsWsRuns : List Char → Bool → Nat
  | [], _ => 0
  | c :: cs, inRun =>
      if jsIsWs c then (if inRun then 0 else 1) + charsWsRuns cs true
      else charsWsRuns cs false

/-- `s.split(/\s+/).length`.  JavaScript keeps the empty fragments produced by
a leading or trailing whitespace run, so the count is (number of maximal
whitespace runs) + 1 — including `"".split(/\s+/).length = 1`. -/
def jsSplitWsCount (s : String) : Nat :=
  charsWsRuns s.data false + 1

/-- `keyword.split(' ')` — split on the literal space character, keeping empty
fragments (as JavaScript does). -/
def charsSplitChar (sep : Char) : List Char → List (List Char)
  | [] => [[]]
  | c :: cs =>
      let rest := charsSplitChar sep cs
      if c = sep then [] :: rest
      else
        match rest with
        | [] => [[c]]
        | r :: rs => (c :: r) :: rs

def jsSplitChar (sep : Char) (s : String) : List String :=
  (charsSplitChar sep s.data).map String.mk

/-! ## The model of `new Date(...)`

No claim under verification depends on the numeric value of a parsed date
(the only ordering claims concern `created_utc` and `score`, which the code
reads directly as numbers).  `new Date(string).getTime()` is therefore
modelled by a constant; every sort that keys on it degenerates to the
identity permutation, which is recorded where it matters. -/
def jsDateParse (_s : String) : Int := 0

/-! ## Minimal JSON / JavaScript-object model

Used for generic-API payloads, where the source code walks duck-typed parsed
JSON.  `undefined` and `null` are identified as `jnull` (both are falsy and
neither equals any string, which is all the source relies on). -/

inductive JSON where
  | jnull : JSON
  | jstr : String → JSON
  | jnum : Int → JSON
  | jbool : Bool → JSON
  | jarr : List JSON → JSON
  | jobj : List (String × JSON) → JSON

/-- Property access `o[k]`; missing keys and non-objects give `jnull`
(JavaScript `undefined`). -/
def JSON.get : JSON → String → JSON
  | .jobj fs, k =>
      match fs.find? (fun p => p.1 == k) with
      | some p => p.2
      | none => .jnull
  | _, _ => .jnull

/-- JavaScript truthiness of a JSON value. -/
def JSON.truthy : JSON → Bool
  | .jnull => false
  | .jstr s => !s.isEmpty
  | .jnum n => n ≠ 0
  | .jbool b => b
  | .jarr _ => true
  | .jobj _ => true

/-- `a || b`. -/
def jsOr (a b : JSON) : JSON := if a.truthy then a else b

/-- String coercion as used in the template literal `` `#${item.id}` ``. -/
def jsToString : JSON → String
  | .jnull => "undefined"
  | .jstr s => s
  | .jnum n => toString n
  | .jbool b => if b then "true" else "false"
  | .jarr _ => ""
  | .jobj _ => "[object Object]"

/-- The string stored when a JSON value is assigned to a mongoose `String`
field (the payloads of this development only assign strings). -/
def jsonAsString (j : JSON) : String :=
  match j with
  | .jstr s => s
  | _ => jsToString j

/-- `x?.substring(0, n)` for a field that is a string or absent. -/
def jsOptTake (j : JSON) (n : Nat) : JSON :=
  match j with
  | .jstr s => .jstr (jsTake n s)
  | _ => .jnull

/-- `x?.length || 0` for a field that is a string or absent. -/
def jsOptLen (j : JSON) : Nat :=
  match j with
  | .jstr s => s.length
  | _ => 0

/-- `opt?.length || 0` over `Option String`. -/
def optLen : Option String → Nat
  | some s => s.length
  | none => 0

/-- `opt || ""` over `Option String` (the empty string is falsy). -/
def optOrEmpty : Option String → String
  | some s => s
  | none => ""

/-- `opt || default` over `Option String`, with JavaScript falsiness of `""`. -/
def jsOrStr (a : Option String) (b : String) : String :=
  match a with
  | some s => if s.isEmpty then b else s
  | none => b

/-! ## The persistence model: the `Content` collection

From the mongoose `contentSchema`: `url` is `unique`, `contentHash` carries a
`unique` `sparse` index and is (re)computed by the `pre('save')` hook as the
MD5 hex digest of `title + url`; `title`/`url`/`summary`/`category`/`source`
are `required` trimmed strings with the recorded `maxlength`s, `content` is
optional with `maxlength: 50000`, and `readingTime` validates `min: 1`,
`max: 120`.  Fields that no claim touches (sentiment, difficulty, quality,
metadata, timestamps, …) are omitted from the stored model. -/

/-- Model of Node's `crypto.createHash('md5').update(s).digest('hex')`.  Only
the congruence `s₁ = s₂ → md5Hex s₁ = md5Hex s₂` is used anywhere below; the
model takes the digest to be the input itself (see the header note). -/
def md5Hex (s : String) : String := s

structure ContentDoc where
  title : String
  url : String
  source : String
  summary : String
  content : Option String
  category : String
  readingTime : Nat
deriving DecidableEq, Repr

structure StoredContent where
  title : String
  url : String
  source : String
  summary : String
  content : Option String
  category : String
  readingTime : Nat
  contentHash : String
deriving DecidableEq, Repr

abbrev DB := List StoredContent

/-- mongoose validation of the modelled fields (trim setters applied at
assignment time, before validation). -/
def contentValid (t u src s : String) (body : Option String) (cat : String)
    (rt : Nat) : Bool :=
  !t.isEmpty && t.length ≤ 500 &&
  !u.isEmpty &&
  !src.isEmpty &&
  !s.isEmpty && s.length ≤ 1000 &&
  (match body with | some b => b.length ≤ 50000 | none => true) &&
  !cat.isEmpty &&
  1 ≤ rt && rt ≤ 120

/-- `content.save()`: trim setters, validation, the `pre('save')` hash hook,
and the two unique indexes (`url`, sparse `contentHash`).  Returns the new
store and whether the insert succeeded; a failed insert (validation error or
`DuplicateKeyError`) leaves the store unchanged — the callers catch the
rejection and do not count the item. -/
def saveContent (db : DB) (c : ContentDoc) : DB × Bool :=
  let t := jsTrim c.title
  let u := jsTrim c.url
  let s := jsTrim c.summary
  let src := jsTrim c.source
  let cat := jsTrim c.category
  let h := md5Hex (t ++ u)
  if !(contentValid t u src s c.content cat c.readingTime) then (db, false)
  else if db.any (fun d => d.url == u) then (db, false)
  else if db.any (fun d => d.contentHash == h) then (db, false)
  else ({ title := t, url := u, source := src, summary := s,
          content := c.content, category := cat,
          readingTime := c.readingTime, contentHash := h } :: db, true)

/-- `Content.findOne({ url })`. -/
def findByUrl (db : DB) (u : String) : Option StoredContent :=
  db.find? (fun d => d.url == u)

/-- The store invariant of the claims: no two stored items share a URL. -/
def urlsDistinct (db : DB) : Prop :=
  (db.map StoredContent.url).Nodup

instance (db : DB) : Decidable (urlsDistinct db) := by
  unfold urlsDistinct; infer_instance

example : (saveContent []
    { title := "t", url := "u", source := "s", summary := "sum",
      content := none, category := "c", readingTime := 1 }).2 = true := by
  decide

example : (saveContent
    ((saveContent []
      { title := "t", url := "u", source := "s", summary := "sum",
        content := none, category := "c", readingTime := 1 }).1)
    { title := "t2", url := "u", source := "s", summary := "sum",
      content := none, category := "c", readingTime := 1 }).2 = false := by
  decide

/-! ## Source registry and fetch strategies

From the mongoose `sourceSchema` and the strategy literals in
`src/app/api/refresh/route.js`.  Only the configuration consumed by the
refresh pipeline is modelled. -/

inductive SType where
  | reddit | rss | api | manual
deriving DecidableEq, Repr

structure Filters where
  includeKeywords : List String
  excludeKeywords : List String
  /-- `minWordCount`; `0` models the JavaScript-falsy "unset" value, exactly
  as `if (source.filters?.minWordCount)` treats it. -/
  minWordCount : Nat
deriving DecidableEq, Repr

structure SourceCfg where
  subreddit : String
  /-- `config.sortBy` — `none` (or `some ""`) falls back to `'hot'`. -/
  sortBy : Option String
  /-- `config.timeFilter` — `none` falls back to `'day'`. -/
  timeFilter : Option String
deriving DecidableEq, Repr

structure Source where
  name : String
  stype : SType
  url : String
  category : String
  config : SourceCfg
  filters : Filters
deriving DecidableEq, Repr

structure Strategy where
  sortBy : String
  timeFilter : String
  limit : Nat
  description : String
deriving DecidableEq, Repr

/-- Raw Reddit post (`post.data` of a listing child); only the fields the
pipeline reads are modelled. -/
structure RedditPost where
  title : String
  selftext : Option String
  url : String
  created_utc : Int
  score : Int
  author : String := ""
deriving DecidableEq, Repr

/-- Raw Hacker News item (`/v0/item/{id}.json`). -/
structure HNStory where
  title : Option String
  url : Option String
  time : Int := 0
  score : Option Int := none
  by_ : Option String := none
  descendants : Option Int := none
deriving DecidableEq, Repr

/-- RSS item produced by the route-local `parseRSSXML` (`refresh/route.js`).
`pubDateRaw` keeps the raw text handed to `new Date(...)` (dates are modelled
out, see the header). -/
structure RouteRSSItem where
  title : String
  link : String
  description : String
  pubDateRaw : Option String
  author : String
deriving DecidableEq, Repr

/-- RSS/Atom item produced by `ContentAggregator.parseRSSXML`
(`contentAggregator.js`); `pubDate` is `null` when neither date tag is
present. -/
structure AggRSSItem where
  title : String
  link : String
  description : String
  pubDate : Option String
  author : String
  categories : List String
deriving DecidableEq, Repr

/-- The remote world one refresh run observes.  Each component models the
network result of one request shape; `Except.error` is a thrown fetch error /
non-2xx response (the code treats them alike at the granularity the claims
need). -/
structure World where
  /-- Reddit listing: subreddit, sort, time filter, limit ↦ posts. -/
  reddit : String → String → String → Nat → Except Unit (List RedditPost)
  /-- RSS body: feed url, strategy index (the three header variants) ↦ body. -/
  rss : String → Nat → Except Unit String
  /-- Generic API: request url ↦ parsed JSON body. -/
  api : String → Except Unit JSON
  /-- Hacker News story list: endpoint name ↦ ids. -/
  hnStories : String → Except Unit (List Nat)
  /-- Hacker News item fetch. -/
  hnItem : Nat → Except Unit HNStory

/-! ## Stable sort with a JavaScript comparator

`Array.prototype.sort(cmp)` is stable (ES2019); with a comparator of the form
`cmp a b = key b - key a` the result is the unique key-descending ordering
that keeps equal-key elements in input order.  The model realises that
specification with a stable insertion sort: an element is placed before `y`
exactly when `cmp x y < 0`. -/

def jsInsert (cmp : α → α → Int) (x : α) : List α → List α
  | [] => [x]
  | y :: ys => if cmp x y < 0 then x :: y :: ys else y :: jsInsert cmp x ys

def jsSortStable (cmp : α → α → Int) (l : List α) : List α :=
  l.foldl (fun acc x => jsInsert cmp x acc) []

/-! ## `extractTechnologies` (route version, `refresh/route.js`) -/

def routeTechKeywords : List String :=
  ["react", "vue", "angular", "node", "python", "javascript", "typescript",
   "docker", "kubernetes", "aws", "azure", "gcp", "mongodb", "postgresql",
   "redis", "elasticsearch", "machine learning", "ai", "blockchain",
   "cybersecurity", "devops", "microservices", "serverless"]

def extractTechnologies (text : String) : List String :=
  let lowerText := jsLower text
  routeTechKeywords.filter (fun keyword => jsIncludes lowerText keyword)

/-! ## The strategy-aware Reddit filter block
(`processRedditPostsWithStrategy`, `refresh/route.js` lines 418–471)

The three checks run in sequence, each able to clear `shouldInclude`; none
sets it back, so the block is their conjunction.  The two fractional
thresholds `Math.max(15, minWordCount / 20)` and `Math.max(20,
minWordCount / 10)` are compared against the integer `totalWords` via the
exact scaled comparisons (see the header note). -/

def redditWordCountOK (f : Filters) (st : Strategy) (title : String)
    (selftext : Option String) : Bool :=
  if f.minWordCount ≠ 0 then
    let totalWords := title.length + optLen selftext
    if st.sortBy = "top" ∧ st.timeFilter = "month" then
      -- totalWords < Math.max(15, minWordCount / 20)
      !(20 * totalWords < max 300 f.minWordCount)
    else
      -- totalWords < Math.max(20, minWordCount / 10)
      !(10 * totalWords < max 200 f.minWordCount)
  else true

def redditIncludeOK (f : Filters) (st : Strategy) (text : String) : Bool :=
  if f.includeKeywords.length ≠ 0 then
    let hasKeyword := f.includeKeywords.any
      (fun keyword => jsIncludes text (jsLower keyword))
    if !hasKeyword then
      if st.sortBy = "top" ∧ (st.timeFilter = "week" ∨ st.timeFilter = "month")
      then
        f.includeKeywords.any (fun keyword =>
          (jsSplitChar ' ' (jsLower keyword)).any
            (fun part => jsIncludes text part))
      else false
    else true
  else true

def excludeOK (f : Filters) (text : String) : Bool :=
  if f.excludeKeywords.length ≠ 0 then
    !(f.excludeKeywords.any (fun keyword => jsIncludes text (jsLower keyword)))
  else true

def redditShouldInclude (f : Filters) (st : Strategy) (title : String)
    (selftext : Option String) : Bool :=
  let text := jsLower (title ++ " " ++ optOrEmpty selftext)
  redditWordCountOK f st title selftext &&
  redditIncludeOK f st text &&
  excludeOK f text

/-! ## Reddit batch processing (`processRedditPostsWithStrategy`) -/

/-- The in-batch ordering comparator (`refresh/route.js` lines 385–393):
`new`/`rising` order by creation time descending, `top` by score descending,
and the final `else` branch — "hot posts by score" — *also* by score
descending. -/
def redditCmp (sortBy : String) (a b : RedditPost) : Int :=
  if sortBy = "new" ∨ sortBy = "rising" then b.created_utc - a.created_utc
  else if sortBy = "top" then b.score - a.score
  else b.score - a.score

def sortRedditPosts (sortBy : String) (posts : List RedditPost) :
    List RedditPost :=
  jsSortStable (redditCmp sortBy) posts

/-- The normalized document a Reddit post becomes (`new Content({...})`,
`refresh/route.js` lines 482–513). -/
def redditSummaryOf (selftext : Option String) : String :=
  jsOrStr (selftext.map (jsTake 500)) "No description available"

def mkRedditContent (src : Source) (p : RedditPost) : ContentDoc :=
  { title := p.title
    url := p.url
    source := src.name
    summary := redditSummaryOf p.selftext
    content := p.selftext
    category := src.category
    readingTime := (p.title.length + optLen p.selftext + 199) / 200 }

/-- The per-post loop of `processRedditPostsWithStrategy`: duplicate check
(skipped under `forceRefresh`), filter block, `content.save()` with the
failure caught and not counted.  Returns `(fetchedCount, db)`. -/
def processRedditLoop (src : Source) (force : Bool) (st : Strategy)
    (target : Nat) : List RedditPost → Nat → DB → Nat × DB
  | [], fetched, db => (fetched, db)
  | p :: rest, fetched, db =>
      if target ≤ fetched then (fetched, db)
      else
        if (findByUrl db p.url).isSome ∧ ¬force then
          processRedditLoop src force st target rest fetched db
        else if !(redditShouldInclude src.filters st p.title p.selftext) then
          processRedditLoop src force st target rest fetched db
        else
          let r := saveContent db (mkRedditContent src p)
          processRedditLoop src force st target rest
            (if r.2 then fetched + 1 else fetched) r.1

def processRedditPostsWithStrategy (posts : List RedditPost) (target : Nat)
    (src : Source) (force : Bool) (st : Strategy) : DB → Nat × DB :=
  fun db => processRedditLoop src force st target
    (sortRedditPosts st.sortBy posts) 0 db

/-! ## The Reddit strategy executor (`fetchRedditContent`, route version) -/

/-- The exploration-strategy list (`refresh/route.js` lines 199–232). -/
def redditStrategies (src : Source) (maxPosts : Nat) : List Strategy :=
  [ { sortBy := (jsOrStr src.config.sortBy "hot"),
      timeFilter := (jsOrStr src.config.timeFilter "day"),
      limit := maxPosts, description := "primary configured strategy" },
    { sortBy := "top", timeFilter := "week",
      limit := min (maxPosts * 2) 100,
      description := "top weekly posts (deeper content)" },
    { sortBy := "top", timeFilter := "month",
      limit := min (maxPosts * 3) 150,
      description := "top monthly posts (historical content)" },
    { sortBy := "new", timeFilter := "day", limit := maxPosts,
      description := "new posts from today" },
    { sortBy := "rising", timeFilter := "day", limit := maxPosts,
      description := "rising posts from today" } ]

/-- `fetchRedditWithStrategy`: OAuth endpoint, then up to three public
approaches — all hit the same listing, so the network outcome is the world's
answer for `(subreddit, sort, time, limit)`; any thrown error or all-non-2xx
ends in `{fetchedCount: 0}`. -/
def fetchRedditWithStrategy (w : World) (src : Source) (st : Strategy)
    (target : Nat) (force : Bool) (db : DB) : Nat × DB :=
  match w.reddit src.config.subreddit st.sortBy st.timeFilter st.limit with
  | .error _ => (0, db)
  | .ok posts => processRedditPostsWithStrategy posts target src force st db

/-- The progressive strategy loop (`refresh/route.js` lines 239–272): run
while `totalFetched < maxPosts` and strategies remain; a strategy whose own
yield is positive and `≥ maxPosts * 0.6` (modelled exactly as
`5 * yield ≥ 3 * maxPosts`) breaks the loop.  Returns the per-attempted-
strategy yields, in order. -/
def redditStrategyLoop (w : World) (src : Source) (maxPosts : Nat)
    (force : Bool) : List Strategy → Nat → DB → List Nat × DB
  | [], _, db => ([], db)
  | st :: rest, acc, db =>
      if acc < maxPosts then
        let r := fetchRedditWithStrategy w src st (maxPosts - acc) force db
        if 0 < r.1 ∧ 3 * maxPosts ≤ 5 * r.1 then ([r.1], r.2)
        else
          let q := redditStrategyLoop w src maxPosts force rest
            (acc + r.1) r.2
          (r.1 :: q.1, q.2)
      else ([], db)

/-- `fetchRedditContent` (route version): total yield of the strategy loop. -/
def fetchRedditContent (w : World) (src : Source) (maxPosts : Nat)
    (force : Bool) (db : DB) : Nat × DB :=
  let r := redditStrategyLoop w src maxPosts force
    (redditStrategies src maxPosts) 0 db
  (r.1.sum, r.2)

/-- The yields recorded by one source's Reddit strategy executor (used by the
progressive-termination claim). -/
def redditRunYields (w : World) (src : Source) (maxPosts : Nat) (db : DB) :
    List Nat :=
  (redditStrategyLoop w src maxPosts true (redditStrategies src maxPosts)
    0 db).1

/-! ## Regex-shaped XML scanning

The source scrapes feeds with a handful of regex shapes.  Each shape is
modelled by a position scanner with the same leftmost-match semantics; `fuel`
(always instantiated with the input length plus one) bounds the scan and is
never exhausted on the inputs of this development. -/

/-- Split at the first occurrence of a single character. -/
def charsSplitAtChar (sep : Char) : List Char → Option (List Char × List Char)
  | [] => none
  | c :: cs =>
      if c = sep then some ([], cs)
      else (charsSplitAtChar sep cs).map (fun p => (c :: p.1, p.2))

/-- Try `<tag[^>]*>([\s\S]*?)</tag>` at the head of `s` (case-insensitive).
On success, returns `(fullMatchLength, captureBody, rest)`. -/
def tryTagBlockAtCI (tag : List Char) (s : List Char) :
    Option (List Char × List Char × List Char) :=
  if charsIsPreCI ('<' :: tag) s then
    let s1 := s.drop (tag.length + 1)
    match charsSplitAtChar '>' s1 with
    | none => none
    | some (attrs, s2) =>
        match charsSplitAtSubCI ('<' :: '/' :: tag ++ ['>']) s2 with
        | none => none
        | some (body, rest) =>
            let total := tag.length + 1 + attrs.length + 1 + body.length +
              (tag.length + 3)
            some (s.take total, body, rest)
  else none

/-- All full matches of `/<tag[^>]*>([\s\S]*?)<\/tag>/gi` (the route
`parseRSSXML` item loop uses the full match strings). -/
def scanFullTagBlocksCI (fuel : Nat) (tag : List Char) (s : List Char) :
    List (List Char) :=
  match fuel, s with
  | 0, _ => []
  | _, [] => []
  | fuel + 1, c :: cs =>
      match tryTagBlockAtCI tag (c :: cs) with
      | some (full, _, rest) => full :: scanFullTagBlocksCI fuel tag rest
      | none => scanFullTagBlocksCI fuel tag cs

/-- Try `<tag[^>]*>([\s\S]*?)</tag>` at the head, case-sensitively, returning
the capture and the rest (the aggregator entry/item loops use `match[1]`). -/
def tryTagBlockAtCS (tag : List Char) (s : List Char) :
    Option (List Char × List Char) :=
  if charsIsPre ('<' :: tag) s then
    let s1 := s.drop (tag.length + 1)
    match charsSplitAtChar '>' s1 with
    | none => none
    | some (_, s2) =>
        match charsSplitAtSub ('<' :: '/' :: tag ++ ['>']) s2 with
        | none => none
        | some (body, rest) => some (body, rest)
  else none

/-- All captures of `/<tag[^>]*>([\s\S]*?)<\/tag>/g` (case-sensitive — the
`entryRegex`/`itemRegex` of `ContentAggregator.parseRSSXML` carry no `i`
flag). -/
def scanTagBodiesCS (fuel : Nat) (tag : List Char) (s : List Char) :
    List (List Char) :=
  match fuel, s with
  | 0, _ => []
  | _, [] => []
  | fuel + 1, c :: cs =>
      match tryTagBlockAtCS tag (c :: cs) with
      | some (body, rest) => body :: scanTagBodiesCS fuel tag rest
      | none => scanTagBodiesCS fuel tag cs

/-- First capture of `/<tag[^>]*>([\s\S]*?)<\/tag>/i` — the inner field
regexes of the route `parseRSSXML`. -/
def findTagBodyCI (fuel : Nat) (tag : List Char) (s : List Char) :
    Option (List Char) :=
  match fuel, s with
  | 0, _ => none
  | _, [] => none
  | fuel + 1, c :: cs =>
      match tryTagBlockAtCI tag (c :: cs) with
      | some (_, body, _) => some body
      | none => findTagBodyCI fuel tag cs

/-- Try the CDATA shape
`<tag[^>]*>\s*<!\[CDATA\[([^\]]*)\]\]>\s*</tag>` (flag `i`) at the head;
returns the capture and the rest of the input past the match. -/
def tryCdataAtCI (tag : List Char) (s : List Char) :
    Option (List Char × List Char) :=
  if charsIsPreCI ('<' :: tag) s then
    match charsSplitAtChar '>' (s.drop (tag.length + 1)) with
    | none => none
    | some (_, s2) =>
        let s3 := s2.dropWhile jsIsWs
        if charsIsPreCI "<![CDATA[".data s3 then
          let s4 := s3.drop 9
          match charsSplitAtChar ']' s4 with
          | none => none
          | some (cap, s5) =>
              -- the regex needs the literal `]]>`; `cap` ran to the first `]`
              if charsIsPre [']', '>'] s5 then
                let s6 := (s5.drop 2).dropWhile jsIsWs
                if charsIsPreCI ('<' :: '/' :: tag ++ ['>']) s6 then
                  some (cap, s6.drop (tag.length + 3))
                else none
              else none
        else none
    else none

/-- Try the plain shape `<tag[^>]*>([^<]*)</tag>` (flag `i`) at the head;
returns the capture and the rest past the match. -/
def tryPlainTagAtCI (tag : List Char) (s : List Char) :
    Option (List Char × List Char) :=
  if charsIsPreCI ('<' :: tag) s then
    match charsSplitAtChar '>' (s.drop (tag.length + 1)) with
    | none => none
    | some (_, s2) =>
        -- `([^<]*)` is forced to stop at the first `<`
        let cap := s2.takeWhile (fun c => c ≠ '<')
        let s3 := s2.drop cap.length
        if charsIsPreCI ('<' :: '/' :: tag ++ ['>']) s3 then
          some (cap, s3.drop (tag.length + 3))
        else none
  else none

/-- First match of a head-matcher anywhere in `s` (leftmost semantics). -/
def scanFirst (m : List Char → Option (List Char × List Char)) (fuel : Nat) :
    List Char → Option (List Char)
  | [] => (m []).map Prod.fst
  | c :: cs =>
      match fuel with
      | 0 => none
      | fuel + 1 =>
          match m (c :: cs) with
          | some (cap, _) => some cap
          | none => scanFirst m fuel cs

/-- All matches of a head-matcher (global flag: continue past each match). -/
def scanAll (m : List Char → Option (List Char × List Char)) (fuel : Nat) :
    List Char → List (List Char)
  | [] => []
  | c :: cs =>
      match fuel with
      | 0 => []
      | fuel + 1 =>
          match m (c :: cs) with
          | some (cap, rest) => cap :: scanAll m fuel rest
          | none => scanAll m fuel cs

/-! ## `ContentAggregator` string helpers -/

/-- `extractXMLTagWithCDATA(content, tagName)`: the CDATA shape is tried
first over the whole content, then the plain shape; `null` if neither
matches. -/
def extractXMLTagWithCDATA (content : String) (tagName : String) :
    Option String :=
  let cs := content.data
  match scanFirst (tryCdataAtCI tagName.data) (cs.length + 1) cs with
  | some cap => some (String.mk cap)
  | none =>
      (scanFirst (tryPlainTagAtCI tagName.data) (cs.length + 1) cs).map
        String.mk

/-- `extractXMLTagsWithCDATA(content, tagName)`: all CDATA matches, then all
plain matches, each passed through `cleanHTML`, empties dropped
(`filter(Boolean)`).  `cleanHTML` is applied below after it is defined;
this function returns the raw capture lists. -/
def extractXMLTagsRaw (content : String) (tagName : String) : List String :=
  let cs := content.data
  ((scanAll (tryCdataAtCI tagName.data) (cs.length + 1) cs) ++
   (scanAll (tryPlainTagAtCI tagName.data) (cs.length + 1) cs)).map String.mk

/-- `text.replace(/<[^>]*>/g, '')`: a `<` with no later `>` stays. -/
def charsStripTags (fuel : Nat) : List Char → List Char
  | [] => []
  | c :: cs =>
      match fuel with
      | 0 => c :: cs
      | fuel + 1 =>
          if c = '<' then
            match charsSplitAtChar '>' cs with
            | some (_, rest) => charsStripTags fuel rest
            | none => '<' :: charsStripTags fuel cs
          else c :: charsStripTags fuel cs

/-- `text.replace(/&[^;]+;/g, ' ')`: an `&` immediately followed by `;`, or
with no later `;`, stays. -/
def charsEntitiesToSpace (fuel : Nat) : List Char → List Char
  | [] => []
  | c :: cs =>
      match fuel with
      | 0 => c :: cs
      | fuel + 1 =>
          if c = '&' then
            match charsSplitAtChar ';' cs with
            | some (mid, rest) =>
                if mid.isEmpty then '&' :: charsEntitiesToSpace fuel cs
                else ' ' :: charsEntitiesToSpace fuel rest
            | none => '&' :: charsEntitiesToSpace fuel cs
          else c :: charsEntitiesToSpace fuel cs

/-- `cleanHTML(text)` (`contentAggregator.js`): falsy in, empty out;
otherwise strip tags, entities to spaces, trim. -/
def cleanHTML (text : String) : String :=
  if text.isEmpty then ""
  else
    let s1 := charsStripTags (text.data.length + 1) text.data
    jsTrim (String.mk (charsEntitiesToSpace (s1.length + 1) s1))

def cleanHTMLOpt : Option String → String
  | none => ""
  | some t => cleanHTML t

/-- `url.match(/\?p=(\d+)/)` — first `?p=` followed by at least one digit;
captures the maximal digit run. -/
def findPostIdNum (fuel : Nat) : List Char → Option (List Char)
  | [] => none
  | c :: cs =>
      match fuel with
      | 0 => none
      | fuel + 1 =>
          if charsIsPre "?p=".data (c :: cs) then
            let tail3 := (c :: cs).drop 3
            let digits := tail3.takeWhile Char.isDigit
            if digits.isEmpty then findPostIdNum fuel cs
            else some digits
          else findPostIdNum fuel cs

/-- `itemContent.match(/<guid[^>]*>([^<]+)<\/guid>/i)` — like the plain tag
shape but with a non-empty capture. -/
def tryGuidAtCI (s : List Char) : Option (List Char × List Char) :=
  match tryPlainTagAtCI "guid".data s with
  | some (cap, rest) => if cap.isEmpty then none else some (cap, rest)
  | none => none

def findGuid (content : List Char) : Option String :=
  (scanFirst tryGuidAtCI (content.length + 1) content).map String.mk

/-- `fixRSSUrl(url, itemContent)` (`contentAggregator.js` lines 914–943). -/
def fixRSSUrl (url : String) (itemContent : String) : String :=
  if jsIncludes url "theverge.com" ∧ jsIncludes url "?p=" then
    match findPostIdNum (url.data.length + 1) url.data with
    | some digits =>
        let postId := String.mk digits
        match findGuid itemContent.data with
        | some g =>
            if ¬jsIncludes g "?p=" then g
            else "https://www.theverge.com/" ++ postId
        | none => "https://www.theverge.com/" ++ postId
    | none =>
        if jsIncludes url "?" ∧ ¬jsIncludes url "/" then
          match findGuid itemContent.data with
          | some g => if ¬jsIncludes g "?" then g else url
          | none => url
        else url
  else
    if jsIncludes url "?" ∧ ¬jsIncludes url "/" then
      match findGuid itemContent.data with
      | some g => if ¬jsIncludes g "?" then g else url
      | none => url
    else url

/-- `extractXMLTagsWithCDATA` proper (captures cleaned, empties dropped). -/
def extractXMLTagsWithCDATA (content : String) (tagName : String) :
    List String :=
  ((extractXMLTagsRaw content tagName).map cleanHTML).filter
    (fun s => !s.isEmpty)

/-! ## `ContentAggregator.parseRSSXML` (lines 817–911) -/

/-- Build one parsed item from an Atom `<entry>` body; `none` when
`title && link` fails (either capture missing or empty — JavaScript
truthiness). -/
def aggParseEntry (entryContent : String) : Option AggRSSItem :=
  let title := extractXMLTagWithCDATA entryContent "title"
  let link :=
    match extractXMLTagWithCDATA entryContent "link" with
    | some l => if l.isEmpty then extractXMLTagWithCDATA entryContent "id"
                else some l
    | none => extractXMLTagWithCDATA entryContent "id"
  let description :=
    match extractXMLTagWithCDATA entryContent "summary" with
    | some d => if d.isEmpty then extractXMLTagWithCDATA entryContent "content"
                else some d
    | none => extractXMLTagWithCDATA entryContent "content"
  let pubDate :=
    match extractXMLTagWithCDATA entryContent "published" with
    | some d => if d.isEmpty then extractXMLTagWithCDATA entryContent "updated"
                else some d
    | none => extractXMLTagWithCDATA entryContent "updated"
  let author :=
    match extractXMLTagWithCDATA entryContent "name" with
    | some a => if a.isEmpty then extractXMLTagWithCDATA entryContent "author"
                else some a
    | none => extractXMLTagWithCDATA entryContent "author"
  match title, link with
  | some t, some l =>
      if t.isEmpty ∨ l.isEmpty then none
      else some
        { title := cleanHTML t
          link := fixRSSUrl l entryContent
          description := cleanHTMLOpt description
          pubDate := pubDate
          author := cleanHTMLOpt author
          categories := extractXMLTagsWithCDATA entryContent "category" }
  | _, _ => none

/-- Build one parsed item from an RSS `<item>` body (same shape, different
tag fallbacks). -/
def aggParseRSSItem (itemContent : String) : Option AggRSSItem :=
  let title := extractXMLTagWithCDATA itemContent "title"
  let link := extractXMLTagWithCDATA itemContent "link"
  let description :=
    match extractXMLTagWithCDATA itemContent "description" with
    | some d => if d.isEmpty then
        (match extractXMLTagWithCDATA itemContent "content" with
         | some c => if c.isEmpty then
             extractXMLTagWithCDATA itemContent "content:encoded" else some c
         | none => extractXMLTagWithCDATA itemContent "content:encoded")
      else some d
    | none =>
        match extractXMLTagWithCDATA itemContent "content" with
        | some c => if c.isEmpty then
            extractXMLTagWithCDATA itemContent "content:encoded" else some c
        | none => extractXMLTagWithCDATA itemContent "content:encoded"
  let pubDate :=
    match extractXMLTagWithCDATA itemContent "pubDate" with
    | some d => if d.isEmpty then
        (match extractXMLTagWithCDATA itemContent "date" with
         | some c => if c.isEmpty then
             extractXMLTagWithCDATA itemContent "dc:date" else some c
         | none => extractXMLTagWithCDATA itemContent "dc:date")
      else some d
    | none =>
        match extractXMLTagWithCDATA itemContent "date" with
        | some c => if c.isEmpty then
            extractXMLTagWithCDATA itemContent "dc:date" else some c
        | none => extractXMLTagWithCDATA itemContent "dc:date"
  let author :=
    match extractXMLTagWithCDATA itemContent "author" with
    | some a => if a.isEmpty then
        extractXMLTagWithCDATA itemContent "dc:creator" else some a
    | none => extractXMLTagWithCDATA itemContent "dc:creator"
  match title, link with
  | some t, some l =>
      if t.isEmpty ∨ l.isEmpty then none
      else some
        { title := cleanHTML t
          link := fixRSSUrl l itemContent
          description := cleanHTMLOpt description
          pubDate := pubDate
          author := cleanHTMLOpt author
          categories := extractXMLTagsWithCDATA itemContent "category" }
  | _, _ => none

/-- `ContentAggregator.parseRSSXML`: Atom when the text contains `<feed` or
`<entry`, RSS otherwise. -/
def aggParseRSSXML (xmlText : String) : List AggRSSItem :=
  let cs := xmlText.data
  let isAtom := jsIncludes xmlText "<feed" ∨ jsIncludes xmlText "<entry"
  if isAtom then
    (scanTagBodiesCS (cs.length + 1) "entry".data cs).filterMap
      (fun body => aggParseEntry (String.mk body))
  else
    (scanTagBodiesCS (cs.length + 1) "item".data cs).filterMap
      (fun body => aggParseRSSItem (String.mk body))

/-! ## The route-local `parseRSSXML` (`refresh/route.js` lines 1209–1255)

Only RSS `<item>` blocks are recognised; the field captures use the lazy
any-character shape and are stripped of tags and trimmed. -/

def routeCleanCapture (cap : List Char) : String :=
  jsTrim (String.mk (charsStripTags (cap.length + 1) cap))

def routeParseRSSXML (xmlText : String) : List RouteRSSItem :=
  let cs := xmlText.data
  (scanFullTagBlocksCI (cs.length + 1) "item".data cs).filterMap
    (fun itemMatch =>
      let fuel := itemMatch.length + 1
      match findTagBodyCI fuel "title".data itemMatch,
            findTagBodyCI fuel "link".data itemMatch with
      | some titleCap, some linkCap =>
          let title := routeCleanCapture titleCap
          let link := routeCleanCapture linkCap
          if title.isEmpty ∨ link.isEmpty ∨ title = "undefined" ∨
             link = "undefined" then none
          else some
            { title := title
              link := link
              description :=
                match findTagBodyCI fuel "description".data itemMatch with
                | some d => routeCleanCapture d
                | none => ""
              pubDateRaw :=
                (findTagBodyCI fuel "pubDate".data itemMatch).map
                  routeCleanCapture
              author :=
                match findTagBodyCI fuel "author".data itemMatch with
                | some a => routeCleanCapture a
                | none => "Unknown" }
      | _, _ => none)

/-! ## RSS processing and fetcher (route version) -/

/-- The summary/description the route RSS processor stores (`route.js` line
698): the parsed description truncated to 500, or the placeholder when the
truncation is falsy. -/
def rssSummaryOf (description : String) : String :=
  jsOrStr (some (jsTake 500 description)) "No description available"

/-- The RSS filter block (`route.js` lines 704–744): word-count threshold
`Math.max(15, minWordCount / 15)` (scaled comparison), include keywords with
the unconditional partial-match fallback, strict exclude keywords.  It reads
the already-truncated `description`. -/
def rssShouldInclude (f : Filters) (title description : String) : Bool :=
  let text := jsLower (title ++ " " ++ description)
  let wcOK :=
    if f.minWordCount ≠ 0 then
      !(15 * (title.length + description.length) < max 225 f.minWordCount)
    else true
  let inclOK :=
    if f.includeKeywords.length ≠ 0 then
      if f.includeKeywords.any (fun k => jsIncludes text (jsLower k)) then true
      else
        f.includeKeywords.any (fun k =>
          (jsSplitChar ' ' (jsLower k)).any (fun part => jsIncludes text part))
    else true
  wcOK && inclOK && excludeOK f text

def mkRSSContent (src : Source) (item : RouteRSSItem) (description : String) :
    ContentDoc :=
  { title := item.title
    url := item.link
    source := src.name
    summary := description
    content := none
    category := src.category
    readingTime := (item.title.length + description.length + 199) / 200 }

/-- In-batch RSS ordering (`route.js` lines 666–670): stable sort on parsed
dates, newest first.  With the date model of the header the comparator is
constantly `0`, so the sort is the identity permutation. -/
def rssSortItems (items : List RouteRSSItem) : List RouteRSSItem :=
  jsSortStable (fun a b =>
    jsDateParse (optOrEmpty b.pubDateRaw) - jsDateParse (optOrEmpty a.pubDateRaw))
    items

/-- Per-item loop of `processRSSItemsWithStrategy` (`route.js` 672–795). -/
def processRSSLoop (src : Source) (force : Bool) (target : Nat) :
    List RouteRSSItem → Nat → DB → Nat × DB
  | [], fetched, db => (fetched, db)
  | item :: rest, fetched, db =>
      if target ≤ fetched then (fetched, db)
      else
        if (findByUrl db item.link).isSome ∧ ¬force then
          processRSSLoop src force target rest fetched db
        else
          let description := rssSummaryOf item.description
          if !(rssShouldInclude src.filters item.title description) then
            processRSSLoop src force target rest fetched db
          else
            let r := saveContent db (mkRSSContent src item description)
            processRSSLoop src force target rest
              (if r.2 then fetched + 1 else fetched) r.1

def processRSSItemsWithStrategy (items : List RouteRSSItem) (target : Nat)
    (src : Source) (force : Bool) (db : DB) : Nat × DB :=
  processRSSLoop src force target (rssSortItems items) 0 db

/-- One RSS strategy attempt (`route.js` 569–637): fetch, response
plausibility checks, parse, process.  Returns the strategy's yield. -/
def rssStrategyAttempt (w : World) (src : Source) (idx : Nat) (remaining : Nat)
    (force : Bool) (db : DB) : Nat × DB :=
  match w.rss src.url idx with
  | .error _ => (0, db)
  | .ok xmlText =>
      if xmlText.length < 100 then (0, db)
      else if ¬(jsIncludes xmlText "<rss" ∨ jsIncludes xmlText "<feed" ∨
                jsIncludes xmlText "<item") then (0, db)
      else
        let items := routeParseRSSXML xmlText
        if items.length = 0 then (0, db)
        else processRSSItemsWithStrategy items remaining src force db

/-- The RSS strategy loop (`route.js` 565–645): three header variants, same
accumulate / 60%-break structure as the Reddit loop. -/
def rssStrategyLoop (w : World) (src : Source) (maxPosts : Nat) (force : Bool) :
    List Nat → Nat → DB → Nat × DB
  | [], acc, db => (acc, db)
  | idx :: rest, acc, db =>
      if acc < maxPosts then
        let r := rssStrategyAttempt w src idx (maxPosts - acc) force db
        if 0 < r.1 ∧ 3 * maxPosts ≤ 5 * r.1 then (acc + r.1, r.2)
        else rssStrategyLoop w src maxPosts force rest (acc + r.1) r.2
      else (acc, db)

def fetchRSSContent (w : World) (src : Source) (maxPosts : Nat) (force : Bool)
    (db : DB) : Nat × DB :=
  rssStrategyLoop w src maxPosts force [0, 1, 2] 0 db

/-! ## Generic-API processing and fetcher (route version) -/

/-- The summary the route API processor stores (`route.js` line 1174):
`item.description || item.summary || 'No description available'` — *no*
500-character truncation on this path. -/
def routeAPISummaryOf (item : JSON) : String :=
  jsonAsString (jsOr (item.get "description")
    (jsOr (item.get "summary") (.jstr "No description available")))

/-- The API filter block (`route.js` 1119–1159); identical shape to the RSS
block but reading the raw item fields. -/
def apiShouldInclude (f : Filters) (item : JSON) : Bool :=
  let text := jsLower (jsonAsString (item.get "title") ++ " " ++
    jsonAsString (jsOr (item.get "description") (.jstr "")))
  let wcOK :=
    if f.minWordCount ≠ 0 then
      !(15 * (jsOptLen (item.get "title") + jsOptLen (item.get "description"))
          < max 225 f.minWordCount)
    else true
  let inclOK :=
    if f.includeKeywords.length ≠ 0 then
      if f.includeKeywords.any (fun k => jsIncludes text (jsLower k)) then true
      else
        f.includeKeywords.any (fun k =>
          (jsSplitChar ' ' (jsLower k)).any (fun part => jsIncludes text part))
    else true
  wcOK && inclOK && excludeOK f text

def mkRouteAPIContent (src : Source) (item : JSON) : ContentDoc :=
  let title := jsonAsString (item.get "title")
  { title := title
    url := jsonAsString (item.get "url")
    source := src.name
    summary := routeAPISummaryOf item
    content :=
      match item.get "content" with
      | .jstr s => if s.isEmpty then none else some s
      | _ => none
    category := src.category
    readingTime := (title.length + jsOptLen (item.get "description") + 199) / 200 }

/-- In-batch API ordering (`route.js` 1085–1090): by published date
descending when both items carry one, otherwise comparator `0` (input order,
the sort being stable). -/
def apiSortItems (items : List JSON) : List JSON :=
  jsSortStable (fun a b =>
    if (a.get "publishedAt").truthy ∧ (b.get "publishedAt").truthy then
      jsDateParse (jsonAsString (b.get "publishedAt")) -
        jsDateParse (jsonAsString (a.get "publishedAt"))
    else 0) items

/-- Per-item loop of `processAPIItemsWithStrategy` (`route.js` 1092–1203).
Items without a truthy `title` and `url` are skipped before any check. -/
def processAPILoop (src : Source) (force : Bool) (target : Nat) :
    List JSON → Nat → DB → Nat × DB
  | [], fetched, db => (fetched, db)
  | item :: rest, fetched, db =>
      if target ≤ fetched then (fetched, db)
      else
        if (item.get "title").truthy ∧ (item.get "url").truthy then
          if (findByUrl db (jsonAsString (item.get "url"))).isSome ∧ ¬force then
            processAPILoop src force target rest fetched db
          else if !(apiShouldInclude src.filters item) then
            processAPILoop src force target rest fetched db
          else
            let r := saveContent db (mkRouteAPIContent src item)
            processAPILoop src force target rest
              (if r.2 then fetched + 1 else fetched) r.1
        else processAPILoop src force target rest fetched db

def processAPIItemsWithStrategy (items : List JSON) (target : Nat)
    (src : Source) (force : Bool) (db : DB) : Nat × DB :=
  processAPILoop src force target (apiSortItems items) 0 db

/-! ## Hacker News branch (`route.js` 807–890, 991–1075) -/

def mkHNContent (src : Source) (stDescription : String) (story : HNStory)
    (title url : String) : ContentDoc :=
  { title := title
    url := url
    source := src.name
    summary := "Hacker News " ++ stDescription ++ " with " ++
      toString (match story.score with | some s => s | none => 0) ++ " points"
    content := none
    category := src.category
    readingTime := (title.length + 199) / 200 }

/-- Per-story loop of `processHNStoriesWithStrategy`: fetch each item; any
fetch error or missing `url`/`title` skips the story. -/
def processHNLoop (w : World) (src : Source) (force : Bool)
    (stDescription : String) (target : Nat) :
    List Nat → Nat → DB → Nat × DB
  | [], fetched, db => (fetched, db)
  | storyId :: rest, fetched, db =>
      if target ≤ fetched then (fetched, db)
      else
        match w.hnItem storyId with
        | .error _ => processHNLoop w src force stDescription target rest
            fetched db
        | .ok story =>
            match story.url, story.title with
            | some url, some title =>
                if url.isEmpty ∨ title.isEmpty then
                  processHNLoop w src force stDescription target rest fetched db
                else if (findByUrl db url).isSome ∧ ¬force then
                  processHNLoop w src force stDescription target rest fetched db
                else
                  let r := saveContent db
                    (mkHNContent src stDescription story title url)
                  processHNLoop w src force stDescription target rest
                    (if r.2 then fetched + 1 else fetched) r.1
            | _, _ =>
                processHNLoop w src force stDescription target rest fetched db

/-- The three Hacker News strategies: endpoint name, per-strategy limit. -/
def hnStrategies (maxPosts : Nat) : List (String × String × Nat) :=
  [("topstories", "top stories", maxPosts),
   ("beststories", "best stories", min (maxPosts * 2) 100),
   ("newstories", "new stories", min (maxPosts * 2) 100)]

def hnStrategyLoop (w : World) (src : Source) (maxPosts : Nat) (force : Bool) :
    List (String × String × Nat) → Nat → DB → Nat × DB
  | [], acc, db => (acc, db)
  | (endpoint, description, limit) :: rest, acc, db =>
      if acc < maxPosts then
        match w.hnStories endpoint with
        | .error _ => hnStrategyLoop w src maxPosts force rest acc db
        | .ok stories =>
            let r := processHNLoop w src force description
              (maxPosts - acc) (stories.take limit) 0 db
            if 0 < r.1 ∧ 3 * maxPosts ≤ 5 * r.1 then (acc + r.1, r.2)
            else hnStrategyLoop w src maxPosts force rest (acc + r.1) r.2
      else (acc, db)

/-! ## `fetchAPIContent` (route version, lines 801–988) -/

/-- The three generic-API strategy URLs (`route.js` 895–917). -/
def apiStrategyUrls (src : Source) (maxPosts : Nat) : List String :=
  [src.url,
   src.url ++ (if jsIncludes src.url "?" then "&limit=" else "?limit=") ++
     toString (maxPosts * 2),
   (jsSplitChar '?' src.url).headD ""]

/-- One generic-API strategy attempt: only a top-level JSON array is
processed; anything else is zero yield for the strategy (`route.js` 940–967:
the `else` branch merely logs "returned non-array data"). -/
def apiStrategyAttempt (w : World) (src : Source) (reqUrl : String)
    (remaining : Nat) (force : Bool) (db : DB) : Nat × DB :=
  match w.api reqUrl with
  | .error _ => (0, db)
  | .ok data =>
      match data with
      | .jarr xs => processAPIItemsWithStrategy xs remaining src force db
      | _ => (0, db)

def apiStrategyLoop (w : World) (src : Source) (maxPosts : Nat) (force : Bool) :
    List String → Nat → DB → Nat × DB
  | [], acc, db => (acc, db)
  | reqUrl :: rest, acc, db =>
      if acc < maxPosts then
        let r := apiStrategyAttempt w src reqUrl (maxPosts - acc) force db
        if 0 < r.1 ∧ 3 * maxPosts ≤ 5 * r.1 then (acc + r.1, r.2)
        else apiStrategyLoop w src maxPosts force rest (acc + r.1) r.2
      else (acc, db)

def fetchAPIContent (w : World) (src : Source) (maxPosts : Nat) (force : Bool)
    (db : DB) : Nat × DB :=
  if src.name = "Hacker News" then
    hnStrategyLoop w src maxPosts force (hnStrategies maxPosts) 0 db
  else
    apiStrategyLoop w src maxPosts force (apiStrategyUrls src maxPosts) 0 db

/-! ## The refresh orchestrator (`POST`, `refresh/route.js` lines 42–163) -/

/-- `fetchSourceWithTimeout` (lines 166–192): dispatch on the source-type
string the orchestrator passed; the whole body is wrapped in `try`/`catch`
returning `{fetchedCount: 0, sourceType}` on any throw — in this model each
fetcher is already total with exactly that degraded result. -/
def fetchSourceWithTimeout (w : World) (src : Source) (ty : SType)
    (maxPosts : Nat) (db : DB) : (Nat × SType) × DB :=
  match ty with
  | .reddit =>
      let r := fetchRedditContent w src maxPosts true db
      ((r.1, .reddit), r.2)
  | .rss =>
      let r := fetchRSSContent w src maxPosts true db
      ((r.1, .rss), r.2)
  | .api =>
      let r := fetchAPIContent w src maxPosts true db
      ((r.1, .api), r.2)
  | .manual => ((0, .manual), db)

/-- Sequential processing of the launched per-source fetches (see the header
note on `Promise.allSettled`); returns the settled `(fetchedCount,
sourceType)` results in launch order, threading the store. -/
def processSources (w : World) (maxPosts : Nat) :
    List Source → DB → List (Nat × SType) × DB
  | [], db => ([], db)
  | s :: rest, db =>
      let r := fetchSourceWithTimeout w s s.stype maxPosts db
      let q := processSources w maxPosts rest r.2
      (r.1 :: q.1, q.2)

structure TypeStat where
  processed : Nat := 0
  success : Nat := 0
  failed : Nat := 0
  totalFetched : Nat := 0
deriving DecidableEq, Repr

structure SourceStats where
  reddit : TypeStat := {}
  rss : TypeStat := {}
  api : TypeStat := {}
deriving DecidableEq, Repr

def bumpSuccess (c : Nat) (t : TypeStat) : TypeStat :=
  { t with success := t.success + 1, totalFetched := t.totalFetched + c }

def bumpFailed (t : TypeStat) : TypeStat :=
  { t with failed := t.failed + 1 }

def bumpProcessed (t : TypeStat) : TypeStat :=
  { t with processed := t.processed + 1 }

def SourceStats.update (st : SourceStats) (ty : SType)
    (f : TypeStat → TypeStat) : Except Unit SourceStats :=
  match ty with
  | .reddit => .ok { st with reddit := f st.reddit }
  | .rss => .ok { st with rss := f st.rss }
  | .api => .ok { st with api := f st.api }
  | .manual => .error ()  -- `sourceStats['manual']` is `undefined`: TypeError

/-- The result-accumulation loop of `POST` (lines 101–130).  Each settled
result (always fulfilled — `fetchSourceWithTimeout` never rejects) is paired
with `sources[i]` of the *priority-ordered* list, while the results arrive in
*launch* order; the code reads the type for success/failure tallies from the
result, but `processed` from the possibly different `sources[i]`.  Reaching
the global limit `break`s before that `processed++`.  A `manual`-typed
`sources[i]` would make `sourceStats[source.type].processed++` throw, which
the outer `catch` turns into a failed response. -/
def statsLoop (maxTotal : Nat) :
    List ((Nat × SType) × Source) → Nat → SourceStats →
    Except Unit (Nat × SourceStats)
  | [], tot, st => .ok (tot, st)
  | ((c, ty), src) :: rest, tot, st => do
      let tot' := tot + c
      let st' ←
        if 0 < c then st.update ty (bumpSuccess c)
        else st.update ty bumpFailed
      if maxTotal ≤ tot' then .ok (tot', st')
      else do
        let st'' ← st'.update src.stype bumpProcessed
        statsLoop maxTotal rest tot' st''

structure RefreshResult where
  success : Bool
  totalFetched : Nat
  sourcesProcessed : Nat
  sourceStats : SourceStats
  maxPostsLimit : Nat
  maxPostsPerSource : Nat
  db : DB
deriving Repr

/-- The refresh orchestrator `POST`.  `MAX_TOTAL_POSTS = 25`;
`MAX_POSTS_PER_SOURCE = Math.max(3, Math.floor(25 / sources.length))`
(`sources` is never empty on the runs considered here; JavaScript would give
`Infinity` for an empty list, the model's `Nat` division gives `0` — both
sides then fetch nothing).  Sources are launched grouped by type — reddit,
then rss, then api (a `manual`-typed active source is launched in no group,
exactly as in the route). -/
def runRefresh (w : World) (sources : List Source) (db : DB) : RefreshResult :=
  let maxTotal := 25
  let maxPer := max 3 (maxTotal / sources.length)
  let grouped := sources.filter (fun s => s.stype = .reddit) ++
    sources.filter (fun s => s.stype = .rss) ++
    sources.filter (fun s => s.stype = .api)
  let pr := processSources w maxPer grouped db
  let db' := pr.2
  match statsLoop maxTotal (pr.1.zip sources) 0 {} with
  | .ok (tot, st) =>
      { success := true, totalFetched := tot,
        sourcesProcessed := sources.length, sourceStats := st,
        maxPostsLimit := maxTotal, maxPostsPerSource := maxPer, db := db' }
  | .error _ =>
      { success := false, totalFetched := 0, sourcesProcessed := 0,
        sourceStats := {}, maxPostsLimit := maxTotal,
        maxPostsPerSource := maxPer, db := db' }

/-! ## `ContentAggregator.matchesFilters` (lines 717–752)

The duck-typed `content` argument is modelled as a JSON object (its callers
pass parsed payload items or parsed feed items).  The word-count check is the
*word* count `text.split(/\s+/).length`, compared against
`Math.max(3, minWordCount / 8)` (scaled comparison), tier-independent. -/

def matchesFilters (f : Filters) (content : JSON) : Bool :=
  let text := jsonAsString (jsOr (content.get "title") (.jstr "")) ++ " " ++
    jsonAsString (jsOr (content.get "description")
      (jsOr (content.get "selftext") (jsOr (content.get "summary") (.jstr ""))))
  let lowerText := jsLower text
  let wcOK :=
    if f.minWordCount ≠ 0 then
      !(8 * jsSplitWsCount text < max 24 f.minWordCount)
    else true
  let inclOK :=
    if f.includeKeywords.length ≠ 0 then
      f.includeKeywords.any (fun k => jsIncludes lowerText (jsLower k))
    else true
  wcOK && inclOK && excludeOK f lowerText

/-! ## `ContentAggregator.extractItemsFromAPI` (lines 987–1024) -/

/-- The normalization map of `extractItemsFromAPI`: the six aliased fields,
then `...item` — the item's own keys override the normalized ones, which the
model realises by listing the item's fields first (property access takes the
first binding). -/
def normalizeAPIItem (item : JSON) : JSON :=
  let normalized : List (String × JSON) :=
    [("title", jsOr (item.get "title") (jsOr (item.get "name")
        (jsOr (item.get "headline") (.jstr "Untitled")))),
     ("url", jsOr (item.get "url") (jsOr (item.get "link")
        (jsOr (item.get "html_url") (jsOr (item.get "permalink")
          (.jstr ("#" ++ jsToString (item.get "id"))))))),
     ("summary", jsOr (item.get "summary") (jsOr (item.get "description")
        (jsOr (item.get "body") (jsOr (item.get "excerpt")
          (item.get "title"))))),
     ("publishedAt", jsOr (item.get "published_at")
        (jsOr (item.get "created_at") (jsOr (item.get "date")
          (jsOr (item.get "pubDate") (item.get "timestamp"))))),
     ("author", jsOr (item.get "author") (jsOr ((item.get "user").get "login")
        (jsOr (item.get "creator") (jsOr (item.get "by")
          (.jstr "Unknown"))))),
     ("tags", jsOr (item.get "tags") (jsOr (item.get "topics")
        (jsOr (item.get "labels") (jsOr (item.get "categories")
          (.jarr [])))))]
  match item with
  | .jobj fs => .jobj (fs ++ normalized)
  | _ => .jobj normalized

/-- The post-normalization filter:
`item.title && item.url && item.url !== '#undefined'`. -/
def apiItemKept (item : JSON) : Bool :=
  (item.get "title").truthy && (item.get "url").truthy &&
  (match item.get "url" with
   | .jstr s => s ≠ "#undefined"
   | _ => true)

/-- `Array.isArray` view of a JSON value. -/
def jsonArr? : JSON → Option (List JSON)
  | .jarr xs => some xs
  | _ => none

/-- `extractItemsFromAPI(data, source)`: a top-level array, or the first
array found under `items`/`articles`/`posts`/`results`/`stories`/`data`
(in that key order — each source line checks
`data.k && Array.isArray(data.k)`); anything else is an unknown format and
yields `[]`. -/
def extractItemsFromAPI (data : JSON) : List JSON :=
  let raw : Option (List JSON) :=
    match jsonArr? data with
    | some xs => some xs
    | none =>
        match jsonArr? (data.get "items") with
        | some xs => some xs
        | none =>
            match jsonArr? (data.get "articles") with
            | some xs => some xs
            | none =>
                match jsonArr? (data.get "posts") with
                | some xs => some xs
                | none =>
                    match jsonArr? (data.get "results") with
                    | some xs => some xs
                    | none =>
                        match jsonArr? (data.get "stories") with
                        | some xs => some xs
                        | none => jsonArr? (data.get "data")
  match raw with
  | none => []
  | some items => (items.map normalizeAPIItem).filter apiItemKept

/-! ## `ContentAggregator.fetchAPIContent` (lines 569–656) -/

/-- The summary this path stores (line 620):
`item.summary?.substring(0, 500) || item.description?.substring(0, 500) ||
'No description available'`. -/
def aggAPISummaryOf (item : JSON) : String :=
  jsonAsString (jsOr (jsOptTake (item.get "summary") 500)
    (jsOr (jsOptTake (item.get "description") 500)
      (.jstr "No description available")))

def mkAggAPIContent (src : Source) (item : JSON) : ContentDoc :=
  let title := jsonAsString (item.get "title")
  let ls := jsOptLen (item.get "summary")
  let ld := jsOptLen (item.get "description")
  { title := title
    url := jsonAsString (item.get "url")
    source := src.name
    summary := aggAPISummaryOf item
    content :=
      let c := jsOr (item.get "summary") (item.get "description")
      if c.truthy then some (jsonAsString c) else none
    category := src.category
    readingTime := (title.length + (if ls ≠ 0 then ls else ld) + 199) / 200 }

/-- Per-item loop of the aggregator API path.  Unlike the route loops, a
`save()` rejection here is *not* caught per item: it propagates and fails the
whole source fetch (`fetchAPIContent` re-throws). -/
def aggAPILoop (src : Source) : List JSON → Nat → DB →
    Except Unit (Nat × DB)
  | [], fetched, db => .ok (fetched, db)
  | item :: rest, fetched, db =>
      if !(matchesFilters src.filters item) then
        aggAPILoop src rest fetched db
      else if (findByUrl db (jsonAsString (item.get "url"))).isSome then
        aggAPILoop src rest fetched db
      else
        let r := saveContent db (mkAggAPIContent src item)
        if r.2 then aggAPILoop src rest (fetched + 1) r.1
        else .error ()

/-- `ContentAggregator.fetchAPIContent`: one request, unwrap, process the
first 50 items; any thrown error (fetch failure, non-2xx, save rejection)
becomes a source-level failure. -/
def aggFetchAPIContent (w : World) (src : Source) (db : DB) :
    Except Unit (Nat × DB) :=
  match w.api src.url with
  | .error _ => .error ()
  | .ok data =>
      let items := extractItemsFromAPI data
      aggAPILoop src (items.take 50) 0 db

/-! # Lemmas

General facts about the embedded definitions, shared by the claim theorems
below. -/

theorem urlsDistinct_save (db : DB) (c : ContentDoc) (h : urlsDistinct db) :
    urlsDistinct (saveContent db c).1 := by
  unfold saveContent
  dsimp only
  split
  · exact h
  · split
    · exact h
    · split
      · exact h
      · rename_i hurl _
        unfold urlsDistinct at *
        simp only [List.map_cons, List.nodup_cons]
        refine ⟨fun hmem => hurl ?_, h⟩
        obtain ⟨d, hd, hdu⟩ := List.mem_map.mp hmem
        simp only [List.any_eq_true]
        exact ⟨d, hd, by simp [hdu]⟩

theorem saveContent_dup (db : DB) (c : ContentDoc)
    (hdup : jsTrim c.url ∈ db.map StoredContent.url) :
    saveContent db c = (db, false) := by
  unfold saveContent
  dsimp only
  split
  · rfl
  · rw [if_pos]
    obtain ⟨d, hd, hdu⟩ := List.mem_map.mp hdup
    simp only [List.any_eq_true]
    exact ⟨d, hd, by simp [hdu]⟩

theorem saveContent_hashDup (db : DB) (c : ContentDoc)
    (hdup : ∃ d ∈ db, d.contentHash = md5Hex (jsTrim c.title ++ jsTrim c.url)) :
    saveContent db c = (db, false) := by
  unfold saveContent
  dsimp only
  split
  · rfl
  · split
    · rfl
    · rw [if_pos]
      obtain ⟨d, hd, hdh⟩ := hdup
      simp only [List.any_eq_true]
      exact ⟨d, hd, by simp [hdh]⟩

theorem saveContent_growth (db : DB) (c : ContentDoc) :
    (saveContent db c).1.length =
      db.length + (if (saveContent db c).2 then 1 else 0) := by
  unfold saveContent
  dsimp only
  split
  · simp
  · split
    · simp
    · split
      · simp
      · simp [Nat.add_comm]

theorem saveContent_eq (db : DB) (c : ContentDoc) :
    saveContent db c = (db, false) ∨
    ∃ d, saveContent db c = (d :: db, true) ∧
      d.contentHash = md5Hex (jsTrim c.title ++ jsTrim c.url) ∧
      d.url = jsTrim c.url := by
  unfold saveContent
  dsimp only
  split
  · exact Or.inl rfl
  · split
    · exact Or.inl rfl
    · split
      · exact Or.inl rfl
      · exact Or.inr ⟨_, rfl, rfl, rfl⟩

theorem saveContent_ok_stores_hash (db : DB) (c : ContentDoc)
    (hok : (saveContent db c).2 = true) :
    ∃ d, (saveContent db c).1 = d :: db ∧
      d.contentHash = md5Hex (jsTrim c.title ++ jsTrim c.url) ∧
      d.url = jsTrim c.url := by
  rcases saveContent_eq db c with h | ⟨d, h, hh, hu⟩
  · rw [h] at hok; simp at hok
  · exact ⟨d, by rw [h], hh, hu⟩

/-! ## Stable JavaScript sort: permutation and sortedness -/

theorem jsInsert_perm (cmp : α → α → Int) (x : α) (l : List α) :
    (jsInsert cmp x l).Perm (x :: l) := by
  induction l with
  | nil => simp [jsInsert]
  | cons y ys ih =>
      unfold jsInsert
      split
      · exact List.Perm.refl _
      · exact (ih.cons y).trans (List.Perm.swap x y ys)

theorem jsSortFold_perm (cmp : α → α → Int) :
    ∀ (l acc : List α),
      (l.foldl (fun acc x => jsInsert cmp x acc) acc).Perm (acc ++ l) := by
  intro l
  induction l with
  | nil => intro acc; simp
  | cons x xs ih =>
      intro acc
      simp only [List.foldl_cons]
      refine (ih (jsInsert cmp x acc)).trans ?_
      refine (List.Perm.append_right xs ((jsInsert_perm cmp x acc))).trans ?_
      exact List.perm_middle.symm

theorem jsSortStable_perm (cmp : α → α → Int) (l : List α) :
    (jsSortStable cmp l).Perm l := by
  simpa using jsSortFold_perm cmp l []

theorem mem_jsInsert {cmp : α → α → Int} {x y : α} {l : List α} :
    y ∈ jsInsert cmp x l ↔ y = x ∨ y ∈ l := by
  constructor
  · intro h
    exact List.mem_cons.mp ((jsInsert_perm cmp x l).mem_iff.mp h)
  · intro h
    exact (jsInsert_perm cmp x l).mem_iff.mpr (List.mem_cons.mpr h)

theorem pairwise_jsInsert (k : α → Int) (x : α) (l : List α)
    (h : l.Pairwise (fun a b => k b ≤ k a)) :
    (jsInsert (fun a b => k b - k a) x l).Pairwise (fun a b => k b ≤ k a) := by
  induction l with
  | nil => simp [jsInsert]
  | cons y ys ih =>
      rcases List.pairwise_cons.mp h with ⟨hy, hys⟩
      unfold jsInsert
      split
      · rename_i hlt
        refine List.pairwise_cons.mpr ⟨?_, h⟩
        intro z hz
        rcases List.mem_cons.mp hz with rfl | hz'
        · omega
        · have := hy z hz'
          omega
      · rename_i hnlt
        refine List.pairwise_cons.mpr ⟨?_, ih hys⟩
        intro z hz
        rcases mem_jsInsert.mp hz with rfl | hz'
        · omega
        · exact hy z hz'

theorem pairwise_jsSortStable (k : α → Int) (l : List α) :
    (jsSortStable (fun a b => k b - k a) l).Pairwise
      (fun a b => k b ≤ k a) := by
  suffices h : ∀ (l acc : List α),
      acc.Pairwise (fun a b => k b ≤ k a) →
      (l.foldl (fun acc x => jsInsert (fun a b => k b - k a) x acc)
        acc).Pairwise (fun a b => k b ≤ k a) by
    exact h l [] (by simp)
  intro l
  induction l with
  | nil => intro acc hacc; simpa using hacc
  | cons x xs ih =>
      intro acc hacc
      simp only [List.foldl_cons]
      exact ih _ (pairwise_jsInsert k x acc hacc)

/-! ## The store's URL-uniqueness invariant survives every pipeline stage

Every database mutation in the pipeline goes through `saveContent`; each of
the following lemmas pushes `urlsDistinct` through one of the threading
functions.  Together they show the invariant holds at every point of a run
(each intermediate store is one of the states these recursions pass
through). -/

theorem processRedditLoop_pres (src : Source) (force : Bool) (st : Strategy)
    (target : Nat) :
    ∀ (ps : List RedditPost) (n : Nat) (db : DB), urlsDistinct db →
      urlsDistinct (processRedditLoop src force st target ps n db).2 := by
  intro ps
  induction ps with
  | nil => intro n db h; exact h
  | cons p rest ih =>
      intro n db h
      unfold processRedditLoop
      dsimp only
      split
      · exact h
      · split
        · exact ih _ _ h
        · split
          · exact ih _ _ h
          · exact ih _ _ (urlsDistinct_save _ _ h)

theorem processRedditPosts_pres (posts : List RedditPost) (target : Nat)
    (src : Source) (force : Bool) (st : Strategy) (db : DB)
    (h : urlsDistinct db) :
    urlsDistinct (processRedditPostsWithStrategy posts target src force st
      db).2 :=
  processRedditLoop_pres src force st target _ _ _ h

theorem fetchRedditWithStrategy_pres (w : World) (src : Source) (st : Strategy)
    (target : Nat) (force : Bool) (db : DB) (h : urlsDistinct db) :
    urlsDistinct (fetchRedditWithStrategy w src st target force db).2 := by
  unfold fetchRedditWithStrategy
  split
  · exact h
  · exact processRedditPosts_pres _ _ _ _ _ _ h

theorem redditStrategyLoop_pres (w : World) (src : Source) (maxPosts : Nat)
    (force : Bool) :
    ∀ (sts : List Strategy) (acc : Nat) (db : DB), urlsDistinct db →
      urlsDistinct (redditStrategyLoop w src maxPosts force sts acc db).2 := by
  intro sts
  induction sts with
  | nil => intro acc db h; exact h
  | cons st rest ih =>
      intro acc db h
      unfold redditStrategyLoop
      dsimp only
      split
      · split
        · exact fetchRedditWithStrategy_pres w src st _ force db h
        · exact ih _ _ (fetchRedditWithStrategy_pres w src st _ force db h)
      · exact h

theorem fetchRedditContent_pres (w : World) (src : Source) (maxPosts : Nat)
    (force : Bool) (db : DB) (h : urlsDistinct db) :
    urlsDistinct (fetchRedditContent w src maxPosts force db).2 :=
  redditStrategyLoop_pres w src maxPosts force _ _ _ h

theorem processRSSLoop_pres (src : Source) (force : Bool) (target : Nat) :
    ∀ (items : List RouteRSSItem) (n : Nat) (db : DB), urlsDistinct db →
      urlsDistinct (processRSSLoop src force target items n db).2 := by
  intro items
  induction items with
  | nil => intro n db h; exact h
  | cons item rest ih =>
      intro n db h
      unfold processRSSLoop
      dsimp only
      split
      · exact h
      · split
        · exact ih _ _ h
        · split
          · exact ih _ _ h
          · exact ih _ _ (urlsDistinct_save _ _ h)

theorem rssStrategyAttempt_pres (w : World) (src : Source) (idx remaining : Nat)
    (force : Bool) (db : DB) (h : urlsDistinct db) :
    urlsDistinct (rssStrategyAttempt w src idx remaining force db).2 := by
  unfold rssStrategyAttempt
  dsimp only
  split
  · exact h
  · split
    · exact h
    · split
      · exact h
      · split
        · exact h
        · exact processRSSLoop_pres _ _ _ _ _ _ h

theorem rssStrategyLoop_pres (w : World) (src : Source) (maxPosts : Nat)
    (force : Bool) :
    ∀ (idxs : List Nat) (acc : Nat) (db : DB), urlsDistinct db →
      urlsDistinct (rssStrategyLoop w src maxPosts force idxs acc db).2 := by
  intro idxs
  induction idxs with
  | nil => intro acc db h; exact h
  | cons idx rest ih =>
      intro acc db h
      unfold rssStrategyLoop
      dsimp only
      split
      · split
        · exact rssStrategyAttempt_pres w src idx _ force db h
        · exact ih _ _ (rssStrategyAttempt_pres w src idx _ force db h)
      · exact h

theorem fetchRSSContent_pres (w : World) (src : Source) (maxPosts : Nat)
    (force : Bool) (db : DB) (h : urlsDistinct db) :
    urlsDistinct (fetchRSSContent w src maxPosts force db).2 :=
  rssStrategyLoop_pres w src maxPosts force _ _ _ h

theorem processAPILoop_pres (src : Source) (force : Bool) (target : Nat) :
    ∀ (items : List JSON) (n : Nat) (db : DB), urlsDistinct db →
      urlsDistinct (processAPILoop src force target items n db).2 := by
  intro items
  induction items with
  | nil => intro n db h; exact h
  | cons item rest ih =>
      intro n db h
      unfold processAPILoop
      dsimp only
      split
      · exact h
      · split
        · split
          · exact ih _ _ h
          · split
            · exact ih _ _ h
            · exact ih _ _ (urlsDistinct_save _ _ h)
        · exact ih _ _ h

theorem apiStrategyAttempt_pres (w : World) (src : Source) (reqUrl : String)
    (remaining : Nat) (force : Bool) (db : DB) (h : urlsDistinct db) :
    urlsDistinct (apiStrategyAttempt w src reqUrl remaining force db).2 := by
  unfold apiStrategyAttempt
  split
  · exact h
  · split
    · exact processAPILoop_pres _ _ _ _ _ _ h
    · exact h

theorem apiStrategyLoop_pres (w : World) (src : Source) (maxPosts : Nat)
    (force : Bool) :
    ∀ (urls : List String) (acc : Nat) (db : DB), urlsDistinct db →
      urlsDistinct (apiStrategyLoop w src maxPosts force urls acc db).2 := by
  intro urls
  induction urls with
  | nil => intro acc db h; exact h
  | cons u rest ih =>
      intro acc db h
      unfold apiStrategyLoop
      dsimp only
      split
      · split
        · exact apiStrategyAttempt_pres w src u _ force db h
        · exact ih _ _ (apiStrategyAttempt_pres w src u _ force db h)
      · exact h

theorem processHNLoop_pres (w : World) (src : Source) (force : Bool)
    (d : String) (target : Nat) :
    ∀ (ids : List Nat) (n : Nat) (db : DB), urlsDistinct db →
      urlsDistinct (processHNLoop w src force d target ids n db).2 := by
  intro ids
  induction ids with
  | nil => intro n db h; exact h
  | cons i rest ih =>
      intro n db h
      unfold processHNLoop
      dsimp only
      split
      · exact h
      · split
        · exact ih _ _ h
        · split
          · split
            · exact ih _ _ h
            · split
              · exact ih _ _ h
              · exact ih _ _ (urlsDistinct_save _ _ h)
          · exact ih _ _ h

theorem hnStrategyLoop_pres (w : World) (src : Source) (maxPosts : Nat)
    (force : Bool) :
    ∀ (sts : List (String × String × Nat)) (acc : Nat) (db : DB),
      urlsDistinct db →
      urlsDistinct (hnStrategyLoop w src maxPosts force sts acc db).2 := by
  intro sts
  induction sts with
  | nil => intro acc db h; exact h
  | cons st rest ih =>
      intro acc db h
      unfold hnStrategyLoop
      dsimp only
      split
      · split
        · exact ih _ _ h
        · split
          · exact processHNLoop_pres w src force _ _ _ _ _ h
          · exact ih _ _ (processHNLoop_pres w src force _ _ _ _ _ h)
      · exact h

theorem fetchAPIContent_pres (w : World) (src : Source) (maxPosts : Nat)
    (force : Bool) (db : DB) (h : urlsDistinct db) :
    urlsDistinct (fetchAPIContent w src maxPosts force db).2 := by
  unfold fetchAPIContent
  split
  · exact hnStrategyLoop_pres w src maxPosts force _ _ _ h
  · exact apiStrategyLoop_pres w src maxPosts force _ _ _ h

theorem fetchSourceWithTimeout_pres (w : World) (src : Source) (ty : SType)
    (maxPosts : Nat) (db : DB) (h : urlsDistinct db) :
    urlsDistinct (fetchSourceWithTimeout w src ty maxPosts db).2 := by
  unfold fetchSourceWithTimeout
  cases ty with
  | reddit => exact fetchRedditContent_pres w src maxPosts true db h
  | rss => exact fetchRSSContent_pres w src maxPosts true db h
  | api => exact fetchAPIContent_pres w src maxPosts true db h
  | manual => exact h

theorem processSources_pres (w : World) (maxPosts : Nat) :
    ∀ (srcs : List Source) (db : DB), urlsDistinct db →
      urlsDistinct (processSources w maxPosts srcs db).2 := by
  intro srcs
  induction srcs with
  | nil => intro db h; exact h
  | cons s rest ih =>
      intro db h
      exact ih _ (fetchSourceWithTimeout_pres w s s.stype maxPosts db h)

theorem runRefresh_pres (w : World) (sources : List Source) (db : DB)
    (h : urlsDistinct db) : urlsDistinct (runRefresh w sources db).db := by
  unfold runRefresh
  dsimp only
  split
  · exact processSources_pres w _ _ _ h
  · exact processSources_pres w _ _ _ h

/-! ## Accepted count = store growth (failed saves are not counted) -/

theorem processRedditLoop_growth (src : Source) (force : Bool) (st : Strategy)
    (target : Nat) :
    ∀ (ps : List RedditPost) (n : Nat) (db : DB),
      (processRedditLoop src force st target ps n db).2.length + n =
        db.length + (processRedditLoop src force st target ps n db).1 := by
  intro ps
  induction ps with
  | nil => intro n db; simp [processRedditLoop]
  | cons p rest ih =>
      intro n db
      unfold processRedditLoop
      dsimp only
      split
      · simp
      · split
        · exact ih n db
        · split
          · exact ih n db
          · have hg := saveContent_growth db (mkRedditContent src p)
            have hrec := ih (if (saveContent db (mkRedditContent src p)).2
                then n + 1 else n) (saveContent db (mkRedditContent src p)).1
            cases hok : (saveContent db (mkRedditContent src p)).2 with
            | true => simp [hok] at hg hrec ⊢; omega
            | false => simp [hok] at hg hrec ⊢; omega

/-! ## The progressive strategy loop: yields of non-final strategies -/

theorem redditStrategyLoop_ne_nil (w : World) (src : Source) (T : Nat)
    (force : Bool) :
    ∀ (sts : List Strategy) (acc : Nat) (db : DB),
      (redditStrategyLoop w src T force sts acc db).1 ≠ [] → acc < T := by
  intro sts acc db hne
  cases sts with
  | nil => simp [redditStrategyLoop] at hne
  | cons st rest =>
      unfold redditStrategyLoop at hne
      dsimp only at hne
      by_cases hacc : acc < T
      · exact hacc
      · rw [if_neg hacc] at hne; simp at hne

theorem redditStrategyLoop_yields (w : World) (src : Source) (T : Nat)
    (force : Bool) :
    ∀ (sts : List Strategy) (acc : Nat) (db : DB) (i : Nat),
      i + 1 < (redditStrategyLoop w src T force sts acc db).1.length →
      5 * ((redditStrategyLoop w src T force sts acc db).1.getD i 0) < 3 * T ∧
      acc + (((redditStrategyLoop w src T force sts acc db).1.take
        (i + 1)).sum) < T := by
  intro sts
  induction sts with
  | nil => intro acc db i hi; simp [redditStrategyLoop] at hi
  | cons st rest ih =>
      intro acc db i hi
      unfold redditStrategyLoop at hi ⊢
      dsimp only at hi ⊢
      by_cases hacc : acc < T
      · rw [if_pos hacc] at hi ⊢
        by_cases hbr : 0 < (fetchRedditWithStrategy w src st (T - acc) force
            db).1 ∧ 3 * T ≤ 5 * (fetchRedditWithStrategy w src st (T - acc)
            force db).1
        · rw [if_pos hbr] at hi; simp at hi
        · rw [if_neg hbr] at hi ⊢
          set y := (fetchRedditWithStrategy w src st (T - acc) force db).1
            with hy
          set q := redditStrategyLoop w src T force rest
            (acc + y) (fetchRedditWithStrategy w src st (T - acc) force db).2
            with hq
          cases i with
          | zero =>
              constructor
              · simp only [List.getD_cons_zero]
                omega
              · have hne : q.1 ≠ [] := by
                  intro hnil
                  simp only [List.length_cons, hnil, List.length_nil] at hi
                  omega
                have := redditStrategyLoop_ne_nil w src T force rest
                  (acc + y) _ (hq ▸ hne)
                simpa using this
          | succ j =>
              have hlen : j + 1 < q.1.length := by
                simpa using hi
              have := ih (acc + y)
                (fetchRedditWithStrategy w src st (T - acc) force db).2 j hlen
              rw [← hq] at this
              constructor
              · simpa using this.1
              · have h2 := this.2
                simp only [List.take_succ_cons, List.sum_cons]
                omega
      · rw [if_neg hacc] at hi; simp at hi

/-! ## A sequential settle run decomposes over list append -/

theorem processSources_append (w : World) (maxPosts : Nat) :
    ∀ (l1 l2 : List Source) (db : DB),
      processSources w maxPosts (l1 ++ l2) db =
        ((processSources w maxPosts l1 db).1 ++
          (processSources w maxPosts l2
            (processSources w maxPosts l1 db).2).1,
         (processSources w maxPosts l2 (processSources w maxPosts l1 db).2).2)
    := by
  intro l1
  induction l1 with
  | nil => intro l2 db; simp [processSources]
  | cons s rest ih =>
      intro l2 db
      simp only [List.cons_append, processSources]
      rw [show (rest.append l2) = rest ++ l2 from rfl, ih]

/-! ## An always-throwing Reddit fetch degrades to zero yield -/

theorem fetchRedditWithStrategy_err (w : World) (src : Source) (st : Strategy)
    (target : Nat) (force : Bool) (db : DB)
    (herr : ∀ sb tf lim, w.reddit src.config.subreddit sb tf lim = .error ()) :
    fetchRedditWithStrategy w src st target force db = (0, db) := by
  unfold fetchRedditWithStrategy
  rw [herr]

theorem redditStrategyLoop_err (w : World) (src : Source) (T : Nat)
    (force : Bool)
    (herr : ∀ sb tf lim, w.reddit src.config.subreddit sb tf lim = .error ()) :
    ∀ (sts : List Strategy) (acc : Nat) (db : DB),
      (redditStrategyLoop w src T force sts acc db).1.sum = 0 ∧
      (redditStrategyLoop w src T force sts acc db).2 = db := by
  intro sts
  induction sts with
  | nil => intro acc db; simp [redditStrategyLoop]
  | cons st rest ih =>
      intro acc db
      unfold redditStrategyLoop
      dsimp only
      by_cases hacc : acc < T
      · rw [if_pos hacc]
        rw [fetchRedditWithStrategy_err w src st (T - acc) force db herr]
        simp only []
        rw [if_neg (by simp)]
        have := ih (acc + 0) db
        simp only [Nat.add_zero] at this
        simp [this.1, this.2]
      · rw [if_neg hacc]; simp

theorem fetchRedditContent_err (w : World) (src : Source) (maxPosts : Nat)
    (force : Bool) (db : DB)
    (herr : ∀ sb tf lim, w.reddit src.config.subreddit sb tf lim = .error ()) :
    fetchRedditContent w src maxPosts force db = (0, db) := by
  unfold fetchRedditContent
  have := redditStrategyLoop_err w src maxPosts force herr
    (redditStrategies src maxPosts) 0 db
  dsimp only
  rw [this.1, this.2]

/-! ## The stats loop never throws when no `manual` source is reached -/

theorem statsUpdate_ok (st : SourceStats) (ty : SType)
    (f : TypeStat → TypeStat) (h : ty ≠ .manual) :
    ∃ r, st.update ty f = .ok r := by
  cases ty with
  | reddit => exact ⟨_, rfl⟩
  | rss => exact ⟨_, rfl⟩
  | api => exact ⟨_, rfl⟩
  | manual => exact absurd rfl h

theorem statsLoop_ok (maxTotal : Nat) :
    ∀ (entries : List ((Nat × SType) × Source)) (tot : Nat)
      (st : SourceStats),
      (∀ e ∈ entries, e.1.2 ≠ .manual ∧ e.2.stype ≠ .manual) →
      ∃ r, statsLoop maxTotal entries tot st = .ok r := by
  intro entries
  induction entries with
  | nil => intro tot st _; exact ⟨_, rfl⟩
  | cons e rest ih =>
      intro tot st hall
      obtain ⟨⟨c, ty⟩, src⟩ := e
      have he := hall _ (List.mem_cons_self _ _)
      obtain ⟨hty, hsrc⟩ := he
      have hrest : ∀ e ∈ rest, e.1.2 ≠ .manual ∧ e.2.stype ≠ .manual :=
        fun e he => hall e (List.mem_cons_of_mem _ he)
      unfold statsLoop
      obtain ⟨st1, h1⟩ := statsUpdate_ok st ty (bumpSuccess c) hty
      obtain ⟨st2, h2⟩ := statsUpdate_ok st ty bumpFailed hty
      by_cases hc : 0 < c
      · rw [if_pos hc, h1]
        simp only [bind, Except.bind]
        by_cases hbrk : maxTotal ≤ tot + c
        · rw [if_pos hbrk]; exact ⟨_, rfl⟩
        · rw [if_neg hbrk]
          obtain ⟨st3, h3⟩ := statsUpdate_ok st1 src.stype bumpProcessed hsrc
          rw [h3]
          simp only [bind, Except.bind]
          exact ih _ _ hrest
      · rw [if_neg hc, h2]
        simp only [bind, Except.bind]
        by_cases hbrk : maxTotal ≤ tot + c
        · rw [if_pos hbrk]; exact ⟨_, rfl⟩
        · rw [if_neg hbrk]
          obtain ⟨st3, h3⟩ := statsUpdate_ok st2 src.stype bumpProcessed hsrc
          rw [h3]
          simp only [bind, Except.bind]
          exact ih _ _ hrest

/-! # Claim theorems -/

/-! ## C9 — in-batch processing order -/

/-- The ordering key actually realised by `redditCmp`: creation time for
`new`/`rising`, score for everything else (including `top` *and* the final
`else` branch). -/
def redditKey (sortBy : String) (p : RedditPost) : Int :=
  if sortBy = "new" ∨ sortBy = "rising" then p.created_utc else p.score

def hotPostA : RedditPost :=
  { title := "First hot post", selftext := none,
    url := "https://reddit.example/hot-a", created_utc := 100, score := 1 }

def hotPostB : RedditPost :=
  { title := "Second hot post", selftext := none,
    url := "https://reddit.example/hot-b", created_utc := 90, score := 5 }

/-- Claim C9, counterexample.  The claim says that for any sort other than
`new`/`rising`/`top` — e.g. the configured `hot` — the insertion order
returned by the API is preserved.  It is not: the comparator's `else` branch
sorts by score descending, so a batch `[score 1, score 5]` under `hot` is
processed as `[score 5, score 1]`, not in insertion order. -/
theorem redditBatchOrderHotCounterexample :
    sortRedditPosts "hot" [hotPostA, hotPostB] ≠ [hotPostA, hotPostB] ∧
    sortRedditPosts "hot" [hotPostA, hotPostB] = [hotPostB, hotPostA] := by
  constructor
  · decide
  · decide

/-- Claim C9, amended: within one fetched batch the posts are processed as a
permutation of the batch ordered descending by `redditKey` — creation time
for sort `new` or `rising`, and score for every other sort (`top` *and* any
other value, e.g. the configured `hot`; insertion order is preserved only
between equal keys, the sort being stable). -/
theorem redditBatchOrder (sortBy : String) (posts : List RedditPost) :
    (sortRedditPosts sortBy posts).Perm posts ∧
    (sortRedditPosts sortBy posts).Pairwise
      (fun a b => redditKey sortBy b ≤ redditKey sortBy a) := by
  constructor
  · exact jsSortStable_perm _ posts
  · have hfn : redditCmp sortBy =
        fun a b => redditKey sortBy b - redditKey sortBy a := by
      funext a b
      unfold redditCmp redditKey
      by_cases h : sortBy = "new" ∨ sortBy = "rising"
      · simp [h]
      · by_cases h2 : sortBy = "top" <;> simp [h, h2]
    unfold sortRedditPosts
    rw [hfn]
    exact pairwise_jsSortStable _ posts

/-! ## C5 — minWordCount thresholds at the two tiers -/

def filters150 : Filters :=
  { includeKeywords := [], excludeKeywords := [], minWordCount := 150 }

/-- The primary configured strategy for a `hot`/`day` source. -/
def primaryHotDay : Strategy :=
  { sortBy := "hot", timeFilter := "day", limit := 10,
    description := "primary configured strategy" }

def topMonthStrategy : Strategy :=
  { sortBy := "top", timeFilter := "month", limit := 30,
    description := "top monthly posts (historical content)" }

/-- A candidate whose combined title+body text is exactly 40 characters. -/
def title40 : String := String.mk (List.replicate 40 'a')

/-- A candidate whose combined title+body text is exactly 18 characters. -/
def title18 : String := String.mk (List.replicate 18 'a')

/-- Claim C5, counterexample.  With `minWordCount = 150` the primary-tier
threshold is `Math.max(20, 150 / 10) = 20` *characters*, so the 40-character
candidate is **accepted** by the filter at the primary (`hot`/`day`) tier —
the claim says it is rejected there. -/
theorem redditFilter40CharCounterexample :
    redditShouldInclude filters150 primaryHotDay title40 none = true := by
  decide

/-- Claim C5, amended: with `minWordCount = 150` (and no keyword rules) the
route's Reddit filter compares the combined title+body *character* count
against `max 20 (150/10) = 20` at the primary tier and against
`max 15 (150/20) = 15` at the lenient `top`/`month` tier.  Hence the
40-character candidate of the scenario is accepted at both tiers, and a
candidate is rejected at primary yet accepted at `top`/`month` exactly when
its length lies in `[15, 20)` — e.g. 18 characters. -/
theorem redditFilterTierThresholds :
    (∀ (t : String) (b : Option String),
      (redditShouldInclude filters150 primaryHotDay t b = true ↔
        20 ≤ t.length + optLen b)) ∧
    (∀ (t : String) (b : Option String),
      (redditShouldInclude filters150 topMonthStrategy t b = true ↔
        15 ≤ t.length + optLen b)) ∧
    redditShouldInclude filters150 primaryHotDay title40 none = true ∧
    redditShouldInclude filters150 topMonthStrategy title40 none = true ∧
    redditShouldInclude filters150 primaryHotDay title18 none = false ∧
    redditShouldInclude filters150 topMonthStrategy title18 none = true := by
  refine ⟨?_, ?_, by decide, by decide, by decide, by decide⟩
  · intro t b
    simp only [redditShouldInclude, redditWordCountOK, redditIncludeOK,
      excludeOK, filters150, primaryHotDay]
    simp
    omega
  · intro t b
    simp only [redditShouldInclude, redditWordCountOK, redditIncludeOK,
      excludeOK, filters150, topMonthStrategy]
    simp
    omega

set_option maxRecDepth 100000

/-! ## C7 — Atom handling of the RSS parsers -/

/-- A valid Atom document with 5 entries, 2 of which lack both a `<link>`
and an `<id>`. -/
def atomDoc5 : String :=
  "<?xml version=\"1.0\"?><feed xmlns=\"http://www.w3.org/2005/Atom\">" ++
  "<title>Example Feed</title>" ++
  "<entry><title>Alpha Post</title><link>https://example.com/a</link>" ++
  "<summary>First entry body</summary><published>2024-01-03</published>" ++
  "</entry>" ++
  "<entry><title>Beta Post</title><link>https://example.com/b</link>" ++
  "<summary>Second entry body</summary></entry>" ++
  "<entry><title>Gamma Post</title><link>https://example.com/c</link>" ++
  "</entry>" ++
  "<entry><title>Delta Post</title><summary>No link here</summary></entry>" ++
  "<entry><title>Epsilon Post</title></entry></feed>"

/-- Claim C7, counterexample.  The claim speaks of "the RSS fetcher's
parser" handling both formats and producing exactly 3 candidates on this
Atom document; but the parser actually used by the refresh route
(`parseRSSXML` in `refresh/route.js`) recognises only RSS `<item>` blocks and
produces 0 candidates from the Atom document, not 3. -/
theorem routeParserAtomCounterexample :
    routeParseRSSXML atomDoc5 = [] ∧ (routeParseRSSXML atomDoc5).length ≠ 3 := by
  constructor
  · decide
  · decide

/-- Claim C7, amended: `ContentAggregator.parseRSSXML` handles both RSS
(`<item>`) and Atom (`<entry>`) documents, and on the Atom document with 5
entries of which 2 lack a `<link>` (and `id`) it produces exactly the 3
entries having both title and link, silently skipping the rest (the parser
has no error path for a skipped entry); the route-local `parseRSSXML`,
however, handles only RSS `<item>` documents and produces no candidate from
an Atom document. -/
theorem aggParserAtomThreeCandidates :
    aggParseRSSXML atomDoc5 =
      [{ title := "Alpha Post", link := "https://example.com/a",
         description := "First entry body", pubDate := some "2024-01-03",
         author := "", categories := [] },
       { title := "Beta Post", link := "https://example.com/b",
         description := "Second entry body", pubDate := none,
         author := "", categories := [] },
       { title := "Gamma Post", link := "https://example.com/c",
         description := "", pubDate := none,
         author := "", categories := [] }] ∧
    routeParseRSSXML atomDoc5 = [] := by
  constructor
  · decide
  · decide

/-! ## C8 — generic-API response unwrapping -/

def emptyFilters : Filters :=
  { includeKeywords := [], excludeKeywords := [], minWordCount := 0 }

def apiArticleA : JSON :=
  .jobj [("title", .jstr "Interesting article about React"),
         ("url", .jstr "https://news.example/1"),
         ("description", .jstr "A long write-up on frontend frameworks")]

def apiArticleB : JSON :=
  .jobj [("title", .jstr "Serverless platforms compared"),
         ("url", .jstr "https://news.example/2"),
         ("description", .jstr "Benchmarks of three cloud function runtimes")]

/-- The third article of Scenario C: it has a URL but no `title` key. -/
def apiArticleC : JSON :=
  .jobj [("url", .jstr "https://news.example/3")]

def apiWrappedPayload : JSON :=
  .jobj [("articles", .jarr [apiArticleA, apiArticleB, apiArticleC])]

def apiSource : Source :=
  { name := "Example API", stype := .api,
    url := "https://news.example/feed.json", category := "Tech",
    config := { subreddit := "", sortBy := none, timeFilter := none },
    filters := emptyFilters }

/-- A world whose only answer is the wrapped `{"articles": [...]}` payload. -/
def apiWrappedWorld : World :=
  { reddit := fun _ _ _ _ => .error ()
    rss := fun _ _ => .error ()
    api := fun _ => .ok apiWrappedPayload
    hnStories := fun _ => .error ()
    hnItem := fun _ => .error () }

/-- Accepted-candidate count of an aggregator API fetch. -/
def aggFetchCount (r : Except Unit (Nat × DB)) : Nat :=
  match r with
  | .ok (n, _) => n
  | .error _ => 0

/-- Claim C8, counterexample.  On `{"articles": [...]}` with 3 items of which
one lacks a `title`, the aggregator pipeline accepts **3** candidates, not
the claimed 2: `extractItemsFromAPI` defaults a missing title to the truthy
string `'Untitled'`, so the title-less item is kept, normalized and saved. -/
theorem apiMissingTitleCounterexample :
    aggFetchCount (aggFetchAPIContent apiWrappedWorld apiSource []) ≠ 2 ∧
    aggFetchCount (aggFetchAPIContent apiWrappedWorld apiSource []) = 3 := by
  constructor
  · decide
  · decide

/-- Claim C8, amended: the aggregator's `extractItemsFromAPI` unwraps a
payload wrapped under one of the known keys (`items`, `articles`, `posts`,
`results`, `stories`, `data`, in that order) and `{"articles": [...]}` with 3
items, one missing `title`, yields **3** accepted candidates (the missing
title becomes `'Untitled'`; an item is dropped only when it has no usable
URL, via the `'#undefined'` check); a wrapped object with no recognizable
array yields zero items without being an error.  The refresh route's own API
fetcher, by contrast, processes only top-level arrays: on the same wrapped
payload every strategy sees a non-array and the source yields zero — also
without raising an error. -/
theorem apiUnwrapBehaviour :
    aggFetchCount (aggFetchAPIContent apiWrappedWorld apiSource []) = 3 ∧
    (∀ l : List JSON,
      extractItemsFromAPI (.jobj [("wrapped", .jarr l)]) = []) ∧
    fetchAPIContent apiWrappedWorld apiSource 10 true [] = (0, []) := by
  refine ⟨by decide, ?_, by decide⟩
  intro l
  rfl

/-! ## C6 — the 500-character summary bound -/

/-- A 501-character description. -/
def desc501 : String := String.mk (List.replicate 501 'a')

def apiItem501 : JSON :=
  .jobj [("title", .jstr "Tiny"),
         ("url", .jstr "https://api.example/long-description"),
         ("description", .jstr desc501)]

/-- Claim C6, counterexample.  The refresh route's generic-API path stores
`item.description || item.summary || '…'` with **no** 500-character
truncation: a 501-character description is persisted as a 501-character
summary (the schema only caps summaries at 1000). -/
theorem apiSummaryNotTruncatedCounterexample :
    ((processAPIItemsWithStrategy [apiItem501] 10 apiSource true []).2.map
      (fun d => d.summary.length)) = [501] ∧
    (processAPIItemsWithStrategy [apiItem501] 10 apiSource true []).1 = 1 := by
  constructor
  · decide
  · decide

/-- Claim C6, amended: the Reddit path (`selftext` truncated by
`substring(0, 500)` or the placeholder), the route RSS path (`description`
likewise) and the aggregator's API path (`summary`/`description` likewise)
all persist summaries of at most 500 characters; the refresh route's
generic-API path, however, copies the raw `description`/`summary` without
the bound — a 501-character description is stored at length 501 (subject
only to the schema's 1000-character validator). -/
theorem summaryBound :
    (∀ st : Option String, (redditSummaryOf st).length ≤ 500) ∧
    (∀ d : String, (rssSummaryOf d).length ≤ 500) ∧
    (∀ item : JSON, (aggAPISummaryOf item).length ≤ 500) ∧
    (routeAPISummaryOf apiItem501).length = 501 := by
  have htake : ∀ (s : String), (jsTake 500 s).length ≤ 500 := by
    intro s
    have : (jsTake 500 s).length = min 500 s.data.length := by
      simp [jsTake, String.length_mk]
    omega
  have hOrStr : ∀ (s : String),
      (jsOrStr (some (jsTake 500 s)) "No description available").length
        ≤ 500 := by
    intro s
    unfold jsOrStr
    dsimp only
    split
    · decide
    · exact htake s
  have hoptCases : ∀ (j : JSON),
      jsOptTake j 500 = .jnull ∨
      ∃ s : String, jsOptTake j 500 = .jstr (jsTake 500 s) := by
    intro j
    cases j with
    | jstr s => exact Or.inr ⟨s, rfl⟩
    | jnull => exact Or.inl rfl
    | jnum n => exact Or.inl rfl
    | jbool b => exact Or.inl rfl
    | jarr a => exact Or.inl rfl
    | jobj a => exact Or.inl rfl
  have hOrLe : ∀ (a b : JSON),
      (a = .jnull ∨ ∃ s : String, a = .jstr (jsTake 500 s)) →
      (jsonAsString b).length ≤ 500 →
      (jsonAsString (jsOr a b)).length ≤ 500 := by
    intro a b hna hb
    rcases hna with rfl | ⟨s, rfl⟩
    · exact hb
    · unfold jsOr
      dsimp only [JSON.truthy]
      split
      · exact htake s
      · exact hb
  refine ⟨?_, ?_, ?_, by decide⟩
  · intro st
    cases st with
    | none => decide
    | some s => exact hOrStr s
  · intro d
    exact hOrStr d
  · intro item
    unfold aggAPISummaryOf
    exact hOrLe _ _ (hoptCases _) (hOrLe _ _ (hoptCases _) (by decide))

/-! ## C10 — contentHash deduplication is stronger than URL equality -/

/-- Claim C10: every successful save stores
`contentHash = md5(title + url)` (computed by the `pre('save')` hook from the
trimmed fields), and an insert whose title+url concatenation collides with a
stored item's hash is rejected as a duplicate with the store unchanged —
even when its URL differs from every stored URL, since the unique sparse
index fires on the hash alone. -/
theorem contentHashDedup :
    (∀ (db : DB) (c : ContentDoc),
      (∃ d ∈ db,
        d.contentHash = md5Hex (jsTrim c.title ++ jsTrim c.url)) →
      saveContent db c = (db, false)) ∧
    (∀ (db : DB) (c : ContentDoc), (saveContent db c).2 = true →
      ∃ d, (saveContent db c).1 = d :: db ∧
        d.contentHash = md5Hex (jsTrim c.title ++ jsTrim c.url)) := by
  constructor
  · exact saveContent_hashDup
  · intro db c hok
    obtain ⟨d, h1, h2, _⟩ := saveContent_ok_stores_hash db c hok
    exact ⟨d, h1, h2⟩

def hashDemoDoc : ContentDoc :=
  { title := "ab", url := "c", source := "demo", summary := "text",
    content := none, category := "Tech", readingTime := 1 }

/-- A store holding the single item saved from `hashDemoDoc`
(title `"ab"`, url `"c"`). -/
def hashDemoDB : DB := (saveContent [] hashDemoDoc).1

/-- Title `"a"` and url `"bc"`: a different URL, but the same title+url
concatenation `"abc"` as the stored item. -/
def hashCollideDoc : ContentDoc :=
  { title := "a", url := "bc", source := "demo", summary := "text",
    content := none, category := "Tech", readingTime := 1 }

/-- Witness for `contentHashDedup` at a concrete store: the second insert has
a URL (`"bc"`) shared with no stored item yet is rejected purely by the hash
index, and the first insert did store the hash of `"ab" ++ "c"`. -/
theorem contentHashDedupWitness :
    saveContent hashDemoDB hashCollideDoc = (hashDemoDB, false) ∧
    (∃ d, (saveContent [] hashDemoDoc).1 = d :: [] ∧
      d.contentHash = md5Hex (jsTrim hashDemoDoc.title ++
        jsTrim hashDemoDoc.url)) ∧
    jsTrim hashCollideDoc.url ∉ hashDemoDB.map StoredContent.url :=
  ⟨contentHashDedup.1 hashDemoDB hashCollideDoc (by decide),
   contentHashDedup.2 [] hashDemoDoc (by decide),
   by decide⟩

/-! ## C2 — URL uniqueness across a run -/

/-- Claim C2: (1) a save preserves the all-URLs-distinct invariant of the
store; (2) a save whose (trimmed) URL is already stored fails harmlessly —
the store is unchanged and the result reports failure, which is exactly what
keeps a forced-refresh insert (the route passes `forceRefresh = true`
everywhere, skipping the pre-insert `findOne`) from corrupting the store;
(3) the accepted count of a Reddit batch equals the store growth, so a
failed colliding insert is never counted as accepted; (4) consequently a
whole refresh run maps a URL-distinct store to a URL-distinct store — and
since every intermediate store of the run is produced by a chain of saves
from the initial one (the recursions of the model thread it through
`saveContent` only), the invariant holds at every point during the run. -/
theorem urlUniquenessInvariant :
    (∀ (db : DB) (c : ContentDoc), urlsDistinct db →
      urlsDistinct (saveContent db c).1) ∧
    (∀ (db : DB) (c : ContentDoc),
      jsTrim c.url ∈ db.map StoredContent.url →
      saveContent db c = (db, false)) ∧
    (∀ (src : Source) (force : Bool) (st : Strategy) (target : Nat)
      (ps : List RedditPost) (n : Nat) (db : DB),
      (processRedditLoop src force st target ps n db).2.length + n =
        db.length + (processRedditLoop src force st target ps n db).1) ∧
    (∀ (w : World) (sources : List Source) (db : DB), urlsDistinct db →
      urlsDistinct (runRefresh w sources db).db) :=
  ⟨urlsDistinct_save, saveContent_dup,
   fun src force st target ps n db =>
     processRedditLoop_growth src force st target ps n db,
   runRefresh_pres⟩

/-! ## C4 — progressive strategy termination -/

/-- Claim C4: whenever the executor went on to attempt another strategy
(index `i` is not the last attempted one), strategy `i`'s own accepted yield
was below 60% of the target `T` (exactly: `5·yield < 3·T`, the scaled form
of `yield < T * 0.6`) *and* the accumulated yield through strategy `i` was
still below `T`.  Contrapositively, as soon as one strategy alone yields
≥ 60% of `T` — or the accumulated total reaches `T` — no further strategy is
attempted. -/
theorem progressiveStrategyTermination (w : World) (src : Source) (T : Nat)
    (db : DB) (i : Nat)
    (hi : i + 1 < (redditRunYields w src T db).length) :
    5 * ((redditRunYields w src T db).getD i 0) < 3 * T ∧
    ((redditRunYields w src T db).take (i + 1)).sum < T := by
  unfold redditRunYields at hi ⊢
  have h := redditStrategyLoop_yields w src T true
    (redditStrategies src T) 0 db i hi
  simpa using h

def strategySrc : Source :=
  { name := "r/strategy", stype := .reddit, url := "", category := "Tech",
    config := { subreddit := "strategytest", sortBy := none,
                timeFilter := none },
    filters := emptyFilters }

def strategyPost : RedditPost :=
  { title := "A single fresh post about testing", selftext := none,
    url := "https://reddit.example/strategy/1", created_utc := 5, score := 2 }

/-- A world where only the primary (`hot`) listing answers, with one post:
the executor accepts 1 of the target 10 at strategy 1 (below 60%), then
attempts and exhausts the remaining four strategies. -/
def strategyWorld : World :=
  { reddit := fun _ sortBy _ _ =>
      if sortBy = "hot" then .ok [strategyPost] else .error ()
    rss := fun _ _ => .error ()
    api := fun _ => .error ()
    hnStories := fun _ => .error ()
    hnItem := fun _ => .error () }

/-- Witness for `progressiveStrategyTermination`: in `strategyWorld` the
yields are `[1, 0, 0, 0, 0]`; instantiating the theorem at `i = 0` gives
`5·1 < 3·10` and `1 < 10`. -/
theorem progressiveStrategyTerminationWitness :
    5 * ((redditRunYields strategyWorld strategySrc 10 []).getD 0 0) <
      3 * 10 ∧
    ((redditRunYields strategyWorld strategySrc 10 []).take 1).sum < 10 :=
  progressiveStrategyTermination strategyWorld strategySrc 10 [] 0 (by decide)

/-! ## C3 — graceful degradation of a throwing source -/

theorem fetchSourceWithTimeout_type (w : World) (src : Source) (ty : SType)
    (maxPosts : Nat) (db : DB) :
    (fetchSourceWithTimeout w src ty maxPosts db).1.2 = ty := by
  cases ty <;> rfl

theorem processSources_result_types (w : World) (maxPosts : Nat) :
    ∀ (srcs : List Source) (db : DB) (r : Nat × SType),
      r ∈ (processSources w maxPosts srcs db).1 →
      ∃ s ∈ srcs, r.2 = s.stype := by
  intro srcs
  induction srcs with
  | nil => intro db r hr; simp [processSources] at hr
  | cons s rest ih =>
      intro db r hr
      unfold processSources at hr
      dsimp only at hr
      rcases List.mem_cons.mp hr with rfl | hr'
      · exact ⟨s, List.mem_cons_self _ _,
          fetchSourceWithTimeout_type w s s.stype maxPosts db⟩
      · obtain ⟨s', hs', hty⟩ := ih _ r hr'
        exact ⟨s', List.mem_cons_of_mem _ hs', hty⟩

theorem runRefresh_success (w : World) (sources : List Source) (db : DB)
    (h : ∀ x ∈ sources, x.stype ≠ SType.manual) :
    (runRefresh w sources db).success = true := by
  unfold runRefresh
  dsimp only
  split
  · rfl
  · rename_i e heq
    have hall : ∀ e' ∈ ((processSources w (max 3 (25 / sources.length))
        (sources.filter (fun s => s.stype = SType.reddit) ++
         sources.filter (fun s => s.stype = SType.rss) ++
         sources.filter (fun s => s.stype = SType.api)) db).1.zip sources),
        e'.1.2 ≠ SType.manual ∧ e'.2.stype ≠ SType.manual := by
      intro e' he'
      obtain ⟨h1, h2⟩ := List.of_mem_zip he'
      refine ⟨?_, h e'.2 h2⟩
      obtain ⟨s, hs, hty⟩ := processSources_result_types w _ _ db e'.1 h1
      rw [hty]
      rcases List.mem_append.mp hs with hs' | hs'
      · rcases List.mem_append.mp hs' with hs'' | hs''
        · have := (List.mem_filter.mp hs'').2
          simp only [decide_eq_true_eq] at this
          simp [this]
        · have := (List.mem_filter.mp hs'').2
          simp only [decide_eq_true_eq] at this
          simp [this]
      · have := (List.mem_filter.mp hs').2
        simp only [decide_eq_true_eq] at this
        simp [this]
    obtain ⟨r, hr⟩ := statsLoop_ok 25 _ 0 {} hall
    rw [hr] at heq
    cases heq

/-- Claim C3: if one (reddit) source's fetch always throws, then (1) its
settled per-source result is exactly `(0, reddit)` with the store untouched
— `fetchSourceWithTimeout` absorbs the failure; (2) a run over any source
list containing it decomposes so that every other source is processed
exactly as it would be without the failing one (its per-type statistics are
therefore intact), while the failing source contributes the zero-yield entry
that the stats loop counts as `failed`; and (3) the whole refresh run still
completes with `success = true` (for any source list without the
out-of-scope `manual` type, which the route's stats loop cannot index). -/
theorem gracefulDegradation (w : World) (s : Source) (db : DB)
    (hty : s.stype = SType.reddit)
    (herr : ∀ sb tf lim, w.reddit s.config.subreddit sb tf lim = .error ()) :
    (∀ (maxPer : Nat) (db' : DB),
      fetchSourceWithTimeout w s s.stype maxPer db' =
        ((0, SType.reddit), db')) ∧
    (∀ (maxPer : Nat) (pre post : List Source) (db' : DB),
      processSources w maxPer (pre ++ s :: post) db' =
        ((processSources w maxPer pre db').1 ++ (0, SType.reddit) ::
          (processSources w maxPer post
            (processSources w maxPer pre db').2).1,
         (processSources w maxPer post
           (processSources w maxPer pre db').2).2)) ∧
    (∀ sources : List Source, (∀ x ∈ sources, x.stype ≠ SType.manual) →
      (runRefresh w sources db).success = true) := by
  have h1 : ∀ (maxPer : Nat) (db' : DB),
      fetchSourceWithTimeout w s s.stype maxPer db' =
        ((0, SType.reddit), db') := by
    intro maxPer db'
    rw [hty]
    unfold fetchSourceWithTimeout
    dsimp only
    rw [fetchRedditContent_err w s maxPer true db' herr]
  refine ⟨h1, ?_, ?_⟩
  · intro maxPer pre post db'
    have hcons : ∀ d : DB, processSources w maxPer (s :: post) d =
        ((0, SType.reddit) :: (processSources w maxPer post d).1,
         (processSources w maxPer post d).2) := by
      intro d
      have hstep : processSources w maxPer (s :: post) d =
          ((fetchSourceWithTimeout w s s.stype maxPer d).1 ::
            (processSources w maxPer post
              (fetchSourceWithTimeout w s s.stype maxPer d).2).1,
           (processSources w maxPer post
             (fetchSourceWithTimeout w s s.stype maxPer d).2).2) := rfl
      rw [hstep, h1 maxPer d]
    rw [processSources_append w maxPer pre (s :: post) db', hcons]
  · intro sources hman
    exact runRefresh_success w sources db hman

/-- A world in which every network request fails. -/
def failWorld : World :=
  { reddit := fun _ _ _ _ => .error ()
    rss := fun _ _ => .error ()
    api := fun _ => .error ()
    hnStories := fun _ => .error ()
    hnItem := fun _ => .error () }

def failSrc : Source :=
  { name := "r/failing", stype := .reddit, url := "", category := "Tech",
    config := { subreddit := "failing", sortBy := none, timeFilter := none },
    filters := emptyFilters }

/-- Witness for `gracefulDegradation`: with every request throwing, the
failing source settles as `(0, reddit)` and the run over `[failSrc]` still
reports overall success. -/
theorem gracefulDegradationWitness :
    fetchSourceWithTimeout failWorld failSrc failSrc.stype 5 [] =
      ((0, SType.reddit), []) ∧
    (runRefresh failWorld [failSrc] []).success = true :=
  ⟨(gracefulDegradation failWorld failSrc [] rfl (fun _ _ _ => rfl)).1 5 [],
   (gracefulDegradation failWorld failSrc [] rfl
     (fun _ _ _ => rfl)).2.2 [failSrc] (by decide)⟩

/-! ## C1 — the global MAX_TOTAL cap -/

def capSrc (i : Nat) : Source :=
  { name := "r/capsub" ++ toString i, stype := .reddit, url := "",
    category := "Tech",
    config := { subreddit := "capsub" ++ toString i, sortBy := none,
                timeFilter := none },
    filters := emptyFilters }

/-- Nine active reddit sources: the per-source cap is
`max(3, ⌊25 / 9⌋) = 3`, and `9 × 3 = 27 > 25`. -/
def capSources : List Source :=
  [capSrc 1, capSrc 2, capSrc 3, capSrc 4, capSrc 5, capSrc 6, capSrc 7,
   capSrc 8, capSrc 9]

def capPost (sub : String) (j : Nat) : RedditPost :=
  { title := "Post " ++ toString j ++ " from " ++ sub, selftext := none,
    url := "https://reddit.example/" ++ sub ++ "/" ++ toString j,
    created_utc := Int.ofNat j, score := 1 }

/-- Each subreddit's primary (`hot`/`day`) listing returns three fresh,
filter-passing posts with pairwise distinct URLs. -/
def capWorld : World :=
  { reddit := fun sub sortBy tf _ =>
      if sortBy = "hot" ∧ tf = "day" then
        .ok [capPost sub 1, capPost sub 2, capPost sub 3]
      else .error ()
    rss := fun _ _ => .error ()
    api := fun _ => .error ()
    hnStories := fun _ => .error ()
    hnItem := fun _ => .error () }

/-- Claim C1, evaluated at the failing input.  With nine active sources the
run persists `9 × 3 = 27` content items — more than `MAX_TOTAL_POSTS = 25` —
because each source's parallel fetch saves its items before the
orchestrator's post-hoc "early termination" check runs; even the reported
`totalFetched` is 27.  The per-source half of the claim does hold: every
source accepts exactly its cap of 3. -/
theorem globalCapViolated :
    (runRefresh capWorld capSources []).maxPostsPerSource = 3 ∧
    ((processSources capWorld 3 capSources []).1.map Prod.fst) =
      List.replicate 9 3 ∧
    (runRefresh capWorld capSources []).db.length = 27 ∧
    (runRefresh capWorld capSources []).totalFetched = 27 ∧
    25 < (runRefresh capWorld capSources []).db.length := by
  refine ⟨by decide, by decide, by decide, by decide, by decide⟩

def dupDemoDoc : ContentDoc :=
  { title := "First story", url := "https://dup.example/x", source := "demo",
    summary := "text", content := none, category := "Tech", readingTime := 1 }

def dupDemoDB : DB := (saveContent [] dupDemoDoc).1

/-- Same URL as `dupDemoDoc`, different title: the forced-refresh collision. -/
def dupDemoDoc2 : ContentDoc :=
  { title := "Second story", url := "https://dup.example/x", source := "demo",
    summary := "text", content := none, category := "Tech", readingTime := 1 }

/-- Witness for `urlUniquenessInvariant` at concrete inputs: one save keeps
URLs distinct; the colliding insert (same URL, skipped `findOne` check) fails
harmlessly with the store unchanged; the accepted count of a concrete batch
equals the store growth; a full run out of the empty store keeps URLs
distinct. -/
theorem urlUniquenessWitness :
    urlsDistinct (saveContent [] dupDemoDoc).1 ∧
    saveContent dupDemoDB dupDemoDoc2 = (dupDemoDB, false) ∧
    (processRedditLoop strategySrc true primaryHotDay 5 [strategyPost] 0
      []).2.length + 0 =
      ([] : DB).length +
        (processRedditLoop strategySrc true primaryHotDay 5 [strategyPost] 0
          []).1 ∧
    urlsDistinct (runRefresh failWorld [failSrc] []).db :=
  ⟨urlUniquenessInvariant.1 [] dupDemoDoc (by decide),
   urlUniquenessInvariant.2.1 dupDemoDB dupDemoDoc2 (by decide),
   urlUniquenessInvariant.2.2.1 strategySrc true primaryHotDay 5
     [strategyPost] 0 [],
   urlUniquenessInvariant.2.2.2 failWorld [failSrc] [] (by decide)⟩
